import Mathlib

/-!
# Todo service of `zero-example`: a shallow embedding of `server/src/index.js`

The development embeds the four route handlers of `server/src/index.js`
(`GET /api/todos`, `POST /api/todos`, `PATCH /api/todos/:id`,
`DELETE /api/todos/:id`) together with the parts of the JavaScript runtime and
of the SQL store they rely on:

* JavaScript strings are sequences of UTF-16 code units, so that `.length`
  is the length of the list and `.trim()` removes the ECMAScript white space;
* request bodies are parsed JSON values (`JsVal`), with `String(v)`,
  `Boolean(v)`, `v || ""`, property reads and `Number(s)` following ECMA-262;
* the store is the table `todos` of `server/src/db.js` with its
  `AUTO_INCREMENT` counter; `execute` interprets the statement texts the
  handlers hand to it.
-/

namespace TodoService

/-! ## JavaScript strings -/

/-- One UTF-16 code unit. -/
abbrev CodeUnit := Fin 65536

/-- A JavaScript string: a sequence of UTF-16 code units (it may hold lone
surrogates, as `JSON.parse` can produce them). -/
abbrev JsStr := List CodeUnit

/-- UTF-16 encoding of one Unicode scalar value. -/
def utf16Char (c : Char) : JsStr :=
  if c.toNat < 65536 then [Fin.ofNat c.toNat]
  else
    [Fin.ofNat (0xD800 + (c.toNat - 0x10000) / 1024),
     Fin.ofNat (0xDC00 + (c.toNat - 0x10000) % 1024)]

/-- The JavaScript string denoted by a string literal. -/
def utf16 (s : String) : JsStr := s.toList.flatMap utf16Char

/-- ECMA-262 `WhiteSpace` and `LineTerminator` code units: what `.trim()` and
`Number(...)` strip. -/
def isJsWhiteSpace (c : CodeUnit) : Bool :=
  c.val == 0x09 || c.val == 0x0A || c.val == 0x0B || c.val == 0x0C || c.val == 0x0D ||
  c.val == 0x20 || c.val == 0xA0 || c.val == 0x1680 ||
  (0x2000 ≤ c.val && c.val ≤ 0x200A) ||
  c.val == 0x2028 || c.val == 0x2029 || c.val == 0x202F || c.val == 0x205F ||
  c.val == 0x3000 || c.val == 0xFEFF

/-- The method `String.prototype.trim`: white space removed from both ends. -/
def jsTrim (s : JsStr) : JsStr :=
  ((s.dropWhile isJsWhiteSpace).reverse.dropWhile isJsWhiteSpace).reverse

/-! ## JavaScript numbers -/

/-- A JavaScript number: `NaN`, the two infinities, or a finite IEEE-754
double, held exactly as the decimal `m * 10 ^ e` (every double is a finite
decimal). `JsNum.ofDecimal` rounds a literal to the nearest double. -/
inductive JsNum where
  | nan
  | posInf
  | negInf
  | fin (m : Int) (e : Int)
  deriving DecidableEq, Repr

namespace JsNum

/-- Powers of ten. -/
def pow10 : Nat → Nat
  | 0 => 1
  | n + 1 => 10 * pow10 n

/-- The test `Number.isFinite(n)`. -/
def isFinite : JsNum → Bool
  | fin _ _ => true
  | _ => false

/-- Truthiness of a number: `Boolean(n)` is false for `0`, `-0` and `NaN`. -/
def toBoolean : JsNum → Bool
  | nan => false
  | fin m _ => m != 0
  | _ => true

/-- The number is the integer `i`: the comparison `id = ?` of the store between
the `BIGINT` column and the bound double, taken on their exact values. -/
def eqInt : JsNum → Int → Bool
  | fin m e, i => if 0 ≤ e then m * (pow10 e.toNat : Int) == i else m == i * (pow10 (-e).toNat : Int)
  | _, _ => false

/-- A JavaScript number holding the integer `i`. -/
def ofInt (i : Int) : JsNum := fin i 0

/-- Magnitudes from `2^1024 - 2^970` on round to `Infinity` (the midpoint
between the largest double and `2^1024`); written out as a numeral. -/
def overflowBound : Nat :=
  179769313486231580793728971405303415079934132710037826936173778980444968292764750946649017977587207096330286416692887910946555547851940402630657488671505820681908902000708383676273854845817711531764475730270069855571366959622842914819860834936475292719074168444365510704342711559699508093042880177904174497792

/-- Powers of two. -/
def pow2 : Nat → Nat
  | 0 => 1
  | n + 1 => 2 * pow2 n

/-- Powers of five. -/
def pow5 : Nat → Nat
  | 0 => 1
  | n + 1 => 5 * pow5 n

/-- Binary digits of `k`, counted with at most `fuel` halvings. -/
def bitLengthAux : Nat → Nat → Nat
  | 0, _ => 0
  | fuel + 1, k => if k = 0 then 0 else bitLengthAux fuel (k / 2) + 1

/-- The number of binary digits of `n`. -/
def bitLength (n : Nat) : Nat := bitLengthAux n n

/-- The integer nearest to `num / den`, a tie going to the even one. -/
def roundHalfEven (num den : Nat) : Nat :=
  if 2 * (num % den) < den then num / den
  else if den < 2 * (num % den) then num / den + 1
  else if (num / den) % 2 = 0 then num / den
  else num / den + 1

/-- The fraction `num / den` divided by `2 ^ ex`, as a fraction. -/
def scaleBy (num den : Nat) (ex : Int) : Nat × Nat :=
  if 0 ≤ ex then (num, den * pow2 ex.toNat) else (num * pow2 (-ex).toNat, den)

/-- The double nearest to `num / den` (round to nearest, ties to even), as a
mantissa of at most 53 bits and a binary exponent not below `-1074`: the
value is `mantissa * 2 ^ exponent`. -/
def nearestDouble (num den : Nat) : Nat × Int :=
  if num = 0 then (0, 0)
  else
    let ex0 : Int := (bitLength num : Int) - (bitLength den : Int) - 53
    let s0 := scaleBy num den ex0
    let ex1 : Int := if pow2 53 ≤ s0.1 / s0.2 then ex0 + 1 else ex0
    let ex : Int := if ex1 < -1074 then -1074 else ex1
    let s := scaleBy num den ex
    (roundHalfEven s.1 s.2, ex)

/-- The fraction `mant / 2 ^ k` in lowest terms. -/
def stripTwos : Nat → Nat → Nat × Nat
  | 0, mant => (mant, 0)
  | k + 1, mant => if mant % 2 = 0 then stripTwos k (mant / 2) else (mant, k + 1)

/-- The double `± mant * 2 ^ ex` as a decimal. -/
def ofBinary (neg : Bool) (mant : Nat) (ex : Int) : JsNum :=
  if mant = 0 then fin 0 0
  else if 0 ≤ ex then
    fin (if neg then -((mant * pow2 ex.toNat : Nat) : Int) else ((mant * pow2 ex.toNat : Nat) : Int)) 0
  else
    let low := stripTwos (-ex).toNat mant
    fin (if neg then -((low.1 * pow5 low.2 : Nat) : Int) else ((low.1 * pow5 low.2 : Nat) : Int))
      (-(low.2 : Int))

/-- The number denoted by the literal `± m * 10 ^ e`: the nearest double, or an
infinity when the magnitude reaches `overflowBound`. -/
def ofDecimal (neg : Bool) (m : Nat) (e : Int) : JsNum :=
  let overflow : Bool :=
    if 0 ≤ e then overflowBound ≤ m * pow10 e.toNat
    else overflowBound * pow10 (-e).toNat ≤ m
  if overflow then (if neg then negInf else posInf)
  else
    let d : Nat × Int :=
      if 0 ≤ e then nearestDouble (m * pow10 e.toNat) 1
      else nearestDouble m (pow10 (-e).toNat)
    ofBinary neg d.1 d.2

end JsNum

/-! ### `Number(string)` (ECMA-262 `StringToNumber`) -/

/-- Value of a digit in base 16, if the code unit is one. -/
def hexDigit? (c : CodeUnit) : Option Nat :=
  if 0x30 ≤ c.val ∧ c.val ≤ 0x39 then some (c.val - 0x30)
  else if 0x61 ≤ c.val ∧ c.val ≤ 0x66 then some (c.val - 0x61 + 10)
  else if 0x41 ≤ c.val ∧ c.val ≤ 0x46 then some (c.val - 0x41 + 10)
  else none

/-- The code unit is a digit of the given base (2, 8, 10 or 16). -/
def isDigitOf (base : Nat) (c : CodeUnit) : Bool :=
  match hexDigit? c with
  | some d => d < base
  | none => false

/-- Value of a run of digits in the given base. -/
def digitsValue (base : Nat) (ds : JsStr) : Nat :=
  ds.foldl (fun acc c => acc * base + (hexDigit? c).getD 0) 0

/-- The production `NonDecimalIntegerLiteral`: `0x`, `0o` or `0b` (either case) followed by
at least one digit of that base and nothing else. -/
def parseNonDecimal (t : JsStr) : Option Nat :=
  match t with
  | z :: p :: ds =>
    if z.val = 0x30 ∧ ds ≠ [] then
      let base : Nat :=
        if p.val = 0x78 ∨ p.val = 0x58 then 16
        else if p.val = 0x6F ∨ p.val = 0x4F then 8
        else if p.val = 0x62 ∨ p.val = 0x42 then 2
        else 0
      if base ≠ 0 ∧ ds.all (isDigitOf base) then some (digitsValue base ds) else none
    else none
  | _ => none

/-- The production `ExponentPart` after its `e`: an optional sign and at least one digit. -/
def parseExponent (t : JsStr) : Option Int :=
  let signed : Bool × JsStr :=
    match t with
    | c :: r => if c.val = 0x2B then (false, r) else if c.val = 0x2D then (true, r) else (false, t)
    | [] => (false, t)
  if signed.2 ≠ [] ∧ signed.2.all (isDigitOf 10) then
    some (if signed.1 then -(digitsValue 10 signed.2 : Int) else (digitsValue 10 signed.2 : Int))
  else none

/-- The production `StrUnsignedDecimalLiteral` other than `Infinity`: digits with an optional
fraction and an optional exponent, at least one digit before or after the
point. Returns the mantissa and the decimal exponent. -/
def parseUnsignedDecimal (t : JsStr) : Option (Nat × Int) :=
  let ip := t.span (isDigitOf 10)
  let fp : JsStr × JsStr :=
    match ip.2 with
    | c :: r => if c.val = 0x2E then r.span (isDigitOf 10) else ([], ip.2)
    | [] => ([], ip.2)
  if ip.1 = [] ∧ fp.1 = [] then none
  else
    let m := digitsValue 10 (ip.1 ++ fp.1)
    match fp.2 with
    | [] => some (m, -(fp.1.length : Int))
    | c :: r =>
      if c.val = 0x65 ∨ c.val = 0x45 then
        match parseExponent r with
        | some x => some (m, x - (fp.1.length : Int))
        | none => none
      else none

/-- The production `StrDecimalLiteral`: an optional sign, then `Infinity` or an unsigned
decimal literal. -/
def parseDecimal (t : JsStr) : JsNum :=
  let signed : Bool × JsStr :=
    match t with
    | c :: r => if c.val = 0x2B then (false, r) else if c.val = 0x2D then (true, r) else (false, t)
    | [] => (false, t)
  if signed.2 = utf16 "Infinity" then (if signed.1 then .negInf else .posInf)
  else
    match parseUnsignedDecimal signed.2 with
    | some (m, e) => JsNum.ofDecimal signed.1 m e
    | none => .nan

/-- The conversion `Number(s)` for a string `s`: white space is trimmed, the empty string is
`0`, a non-decimal or decimal literal is its value, anything else is `NaN`. -/
def jsNumber (s : JsStr) : JsNum :=
  let t := jsTrim s
  if t = [] then .fin 0 0
  else
    match parseNonDecimal t with
    | some v => JsNum.ofDecimal false v 0
    | none => parseDecimal t

/-! ## JSON values of a request body -/

mutual
/-- A JavaScript value as `JSON.parse` builds it (plus `undefined`, the value
of an absent property or an absent body). -/
inductive JsVal where
  | undefined
  | null
  | bool (b : Bool)
  | num (n : JsNum)
  | str (s : JsStr)
  | arr (items : JsVals)
  | obj (fields : JsFields)
/-- The elements of an array. -/
inductive JsVals where
  | nil
  | cons (head : JsVal) (tail : JsVals)
/-- The own properties of an object, key by key. -/
inductive JsFields where
  | nil
  | cons (key : JsStr) (value : JsVal) (rest : JsFields)
end

/-- The object has an own property `k`. -/
def JsFields.hasKey (k : JsStr) : JsFields → Bool
  | .nil => false
  | .cons key _ rest => key == k || rest.hasKey k

/-- The own property `k` of an object, `undefined` when there is none. -/
def JsFields.lookup (k : JsStr) : JsFields → JsVal
  | .nil => .undefined
  | .cons key value rest => if key = k then value else rest.lookup k

namespace JsVal

/-- The conversion `Boolean(v)`. -/
def toBoolean : JsVal → Bool
  | undefined => false
  | null => false
  | bool b => b
  | num n => n.toBoolean
  | str s => s != []
  | arr _ => true
  | obj _ => true

/-- The expression `v || ""`. -/
def orEmpty (v : JsVal) : JsVal := if v.toBoolean then v else .str []

/-- The read `v.k` of a property `k` among `title`, `author`, `completed`
(names no prototype defines): `none` is the `TypeError` of reading a property
of `undefined` or `null`. -/
def getProp (v : JsVal) (k : JsStr) : Option JsVal :=
  match v with
  | undefined => none
  | null => none
  | obj fields => some (fields.lookup k)
  | _ => some .undefined

/-- The optional read `v?.k`. -/
def optProp (v : JsVal) (k : JsStr) : JsVal :=
  match v with
  | obj fields => fields.lookup k
  | _ => .undefined

end JsVal

mutual
/-- The conversion `String(v)`: `none` is the `TypeError` "Cannot convert object to primitive
value", thrown for an object whose own `toString` property hides
`Object.prototype.toString` (a parsed JSON value is never callable). The
rendering of a number, `Number::toString`, is the parameter `numToString`. -/
def JsVal.toStr (numToString : JsNum → JsStr) : JsVal → Option JsStr
  | .undefined => some (utf16 "undefined")
  | .null => some (utf16 "null")
  | .bool true => some (utf16 "true")
  | .bool false => some (utf16 "false")
  | .num n => some (numToString n)
  | .str s => some s
  | .arr items => JsVals.join numToString items
  | .obj fields =>
    if fields.hasKey (utf16 "toString") then none else some (utf16 "[object Object]")
/-- The method `Array.prototype.join` with the separator `","`: `undefined` and `null`
elements render as the empty string. -/
def JsVals.join (numToString : JsNum → JsStr) : JsVals → Option JsStr
  | .nil => some []
  | .cons x rest =>
    let head : Option JsStr :=
      match x with
      | .undefined => some []
      | .null => some []
      | _ => JsVal.toStr numToString x
    match rest with
    | .nil => head
    | .cons y more =>
      match head, JsVals.join numToString (.cons y more) with
      | some a, some b => some (a ++ utf16 "," ++ b)
      | _, _ => none
end

/-! ## The store: table `todos` -/

/-- A row of `todos` (`server/src/db.js`, `initDatabase`). `completed` is the
`BOOLEAN` column, a `TINYINT`; the timestamps are in the store's clock
units. -/
structure Row where
  id : Int
  title : JsStr
  author : JsStr
  completed : Int
  created_at : Nat
  updated_at : Nat
  deriving DecidableEq, Repr

/-- The table and its `AUTO_INCREMENT` counter. -/
structure Store where
  rows : List Row
  autoInc : Int
  deriving DecidableEq, Repr

/-- A row object as the driver returns it for the `SELECT` lists of the
handlers (`created_at AS createdAt, updated_at AS updatedAt`), and the todo
of a response, which overrides `completed`. -/
structure Todo where
  id : Int
  title : JsStr
  author : JsStr
  completed : JsVal
  createdAt : Nat
  updatedAt : Nat

/-- A positional parameter handed to the driver. -/
inductive SqlParam where
  | str (s : JsStr)
  | bool (b : Bool)
  | num (n : JsNum)
  deriving DecidableEq, Repr

/-- What `execute` resolves to: the rows of a `SELECT`, or the result header
of a data-changing statement. -/
inductive QueryResult where
  | rows (rs : List Todo)
  | header (affectedRows : Nat) (insertId : Int)

/-- A settable column of `todos`. -/
inductive Column where
  | title
  | author
  | completed
  deriving DecidableEq, Repr

/-- The assignment fragment the update handler pushes for a column. -/
def Column.fragment : Column → String
  | .title => "title = ?"
  | .author => "author = ?"
  | .completed => "completed = ?"

/-- Text of the list query. -/
def selectAllSql : String :=
  "SELECT id, title, author, completed, created_at AS createdAt, updated_at AS updatedAt FROM todos ORDER BY created_at DESC"

/-- Text of the read-back query. -/
def selectByIdSql : String :=
  "SELECT id, title, author, completed, created_at AS createdAt, updated_at AS updatedAt FROM todos WHERE id = ?"

/-- Text of the insert statement. -/
def insertSql : String := "INSERT INTO todos (title, author) VALUES (?, ?)"

/-- Text of the delete statement. -/
def deleteSql : String := "DELETE FROM todos WHERE id = ?"

/-- Text of the update statement built from the pushed fragments:
`UPDATE todos SET ${updates.join(", ")} WHERE id = ?`. -/
def updateSql (updates : List String) : String :=
  "UPDATE todos SET " ++ ", ".intercalate updates ++ " WHERE id = ?"

/-- The statements the store model understands. -/
inductive Statement where
  | selectAll
  | selectById
  | insert
  | update (cols : List Column)
  | delete
  deriving DecidableEq, Repr

/-- The column lists an update statement of the service can carry. -/
def updateShapes : List (List Column) :=
  [[.title], [.author], [.completed], [.title, .author], [.title, .completed],
   [.author, .completed], [.title, .author, .completed]]

/-- Reading of a statement text by the store. -/
def parseSql (sql : String) : Option Statement :=
  if sql = selectAllSql then some .selectAll
  else if sql = selectByIdSql then some .selectById
  else if sql = insertSql then some .insert
  else if sql = deleteSql then some .delete
  else
    (updateShapes.find? (fun cols => updateSql (cols.map Column.fragment) = sql)).map
      Statement.update

/-- The row object the driver builds from a stored row. -/
def Row.toTodo (r : Row) : Todo :=
  { id := r.id, title := r.title, author := r.author,
    completed := .num (JsNum.ofInt r.completed),
    createdAt := r.created_at, updatedAt := r.updated_at }

/-- The predicate `id = ?` on a row. -/
def Row.hasId (n : JsNum) (r : Row) : Bool := n.eqInt r.id

/-- The ordering `ORDER BY created_at DESC`. -/
def newestFirst (rows : List Row) : List Row :=
  rows.insertionSort (fun a b => b.created_at ≤ a.created_at)

/-- The parameter kinds the service binds to a column. -/
def Column.accepts : Column → SqlParam → Bool
  | .title, .str _ => true
  | .author, .str _ => true
  | .completed, .bool _ => true
  | _, _ => false

/-- The values of a `SET` list fit its columns, one each. -/
def wellBound : List Column → List SqlParam → Bool
  | [], [] => true
  | c :: cs, p :: ps => c.accepts p && wellBound cs ps
  | _, _ => false

/-- One `column = ?` assignment; `true` is stored as `1`, `false` as `0`. -/
def assign (r : Row) : Column → SqlParam → Row
  | .title, .str s => { r with title := s }
  | .author, .str s => { r with author := s }
  | .completed, .bool b => { r with completed := if b then 1 else 0 }
  | _, _ => r

/-- The assignments of a `SET` list, left to right. -/
def assignAll (r : Row) : List Column → List SqlParam → Row
  | c :: cs, p :: ps => assignAll (assign r c p) cs ps
  | _, _ => r

/-- Effect of `UPDATE` on one row: a row the predicate selects takes the
assignments, and `updated_at` moves to the current time when a value changed
(`ON UPDATE CURRENT_TIMESTAMP`). -/
def updateRow (cols : List Column) (vals : List SqlParam) (n : JsNum) (now : Nat)
    (r : Row) : Row :=
  if r.hasId n then
    if assignAll r cols vals = r then r else { assignAll r cols vals with updated_at := now }
  else r

/-- The row `INSERT INTO todos (title, author)` adds at time `now`: the next
`AUTO_INCREMENT` id, `completed` at its default `FALSE`, both timestamps at
their default `CURRENT_TIMESTAMP`. -/
def newRow (db : Store) (title author : JsStr) (now : Nat) : Row :=
  { id := db.autoInc, title := title, author := author, completed := 0,
    created_at := now, updated_at := now }

/-- The store's execution of one statement at time `now`: the result and the
store after it, or `none` when the statement fails. Only the statements of the
service, with parameters of the kinds it binds, are understood. The count
`affectedRows` is the number of rows the predicate selects (the driver
connects with `FOUND_ROWS`). Column widths are not enforced here. -/
def execute (sql : String) (params : List SqlParam) (now : Nat) (db : Store) :
    Option (QueryResult × Store) :=
  match parseSql sql, params with
  | some .selectAll, [] => some (.rows ((newestFirst db.rows).map Row.toTodo), db)
  | some .selectById, [.num n] =>
    some (.rows ((db.rows.filter (Row.hasId n)).map Row.toTodo), db)
  | some .insert, [.str title, .str author] =>
    some (.header 1 db.autoInc,
      { rows := db.rows ++ [newRow db title author now], autoInc := db.autoInc + 1 })
  | some .delete, [.num n] =>
    some (.header (db.rows.countP (Row.hasId n)) 0,
      { db with rows := db.rows.filter (fun r => !r.hasId n) })
  | some (.update cols), ps =>
    match ps.getLast? with
    | some (.num n) =>
      if wellBound cols ps.dropLast then
        some (.header (db.rows.countP (Row.hasId n)) 0,
          { db with rows := db.rows.map (updateRow cols ps.dropLast n now) })
      else none
    | _ => none
  | _, _ => none

/-- The read `result.affectedRows`. -/
def QueryResult.affectedRows? : QueryResult → Option Nat
  | .header n _ => some n
  | .rows _ => none

/-- The read `result.insertId`. -/
def QueryResult.insertId? : QueryResult → Option Int
  | .header _ i => some i
  | .rows _ => none

/-- The read `rows[0]`. -/
def QueryResult.first? : QueryResult → Option Todo
  | .rows rs => rs.head?
  | .header _ _ => none

/-! ## The handlers of `server/src/index.js` -/

/-- Body of a response. -/
inductive ResponseBody where
  | message (text : String)
  | todo (t : Todo)
  | todos (ts : List Todo)
  | empty

/-- An HTTP response. -/
structure Response where
  status : Nat
  body : ResponseBody

/-- A statement handed to `execute`: its text and its parameters. -/
structure Issued where
  sql : String
  params : List SqlParam
  deriving DecidableEq, Repr

/-- What handling a request leaves: the response, the store, and the
statements handed to the store, in order. -/
structure Outcome where
  response : Response
  store : Store
  issued : List Issued

/-- The error middleware: `res.status(500).json(...)`. -/
def serverError : Response := ⟨500, .message "Unexpected server error"⟩

/-- The object `{ ...row, completed: Boolean(row.completed) }`. -/
def coerceCompleted (row : Todo) : Todo :=
  { row with completed := .bool row.completed.toBoolean }

/-- The handler `app.get("/api/todos")` (`index.js`, lines 33 to 42). -/
def listTodos (now : Nat) (db : Store) : Outcome :=
  match execute selectAllSql [] now db with
  | some (.rows rows, db1) => ⟨⟨200, .todos (rows.map coerceCompleted)⟩, db1, [⟨selectAllSql, []⟩]⟩
  | some (.header _ _, db1) => ⟨serverError, db1, [⟨selectAllSql, []⟩]⟩
  | none => ⟨serverError, db, [⟨selectAllSql, []⟩]⟩

/-- The handler `app.post("/api/todos")` (`index.js`, lines 44 to 72). A
thrown `TypeError` is caught and forwarded to the error middleware. -/
def createTodo (numToString : JsNum → JsStr) (body : JsVal) (now : Nat) (db : Store) :
    Outcome :=
  match ((body.optProp (utf16 "title")).orEmpty).toStr numToString,
        ((body.optProp (utf16 "author")).orEmpty).toStr numToString with
  | some t, some a =>
    let title := jsTrim t
    let author := jsTrim a
    if title = [] then ⟨⟨400, .message "Title is required"⟩, db, []⟩
    else if author = [] then ⟨⟨400, .message "Author is required"⟩, db, []⟩
    else if title.length > 255 then
      ⟨⟨400, .message "Title must be 255 characters or fewer"⟩, db, []⟩
    else if author.length > 255 then
      ⟨⟨400, .message "Author must be 255 characters or fewer"⟩, db, []⟩
    else
      let insert : Issued := ⟨insertSql, [.str title, .str author]⟩
      match execute insertSql [.str title, .str author] now db with
      | none => ⟨serverError, db, [insert]⟩
      | some (result, db1) =>
        match result.insertId? with
        | none => ⟨serverError, db1, [insert]⟩
        | some insertId =>
          let select : Issued := ⟨selectByIdSql, [.num (JsNum.ofInt insertId)]⟩
          match execute selectByIdSql [.num (JsNum.ofInt insertId)] now db1 with
          | none => ⟨serverError, db1, [insert, select]⟩
          | some (rows, db2) =>
            match rows.first? with
            | none => ⟨serverError, db2, [insert, select]⟩
            | some row => ⟨⟨201, .todo (coerceCompleted row)⟩, db2, [insert, select]⟩
  | _, _ => ⟨serverError, db, []⟩

/-- The `updates` and `values` arrays of the update handler. -/
abbrev Updates := List String × List SqlParam

/-- The `title` block of the update handler (`req.body.title !== undefined`). -/
def pushTitle (numToString : JsNum → JsStr) (body : JsVal) (acc : Updates) :
    Except Response Updates :=
  match body.getProp (utf16 "title") with
  | none => .error serverError
  | some .undefined => .ok acc
  | some v =>
    match v.toStr numToString with
    | none => .error serverError
    | some s =>
      if jsTrim s = [] then .error ⟨400, .message "Title cannot be empty"⟩
      else if (jsTrim s).length > 255 then
        .error ⟨400, .message "Title must be 255 characters or fewer"⟩
      else .ok (acc.1 ++ ["title = ?"], acc.2 ++ [.str (jsTrim s)])

/-- The `author` block of the update handler. -/
def pushAuthor (numToString : JsNum → JsStr) (body : JsVal) (acc : Updates) :
    Except Response Updates :=
  match body.getProp (utf16 "author") with
  | none => .error serverError
  | some .undefined => .ok acc
  | some v =>
    match v.toStr numToString with
    | none => .error serverError
    | some s =>
      if jsTrim s = [] then .error ⟨400, .message "Author cannot be empty"⟩
      else if (jsTrim s).length > 255 then
        .error ⟨400, .message "Author must be 255 characters or fewer"⟩
      else .ok (acc.1 ++ ["author = ?"], acc.2 ++ [.str (jsTrim s)])

/-- The `completed` block of the update handler. -/
def pushCompleted (body : JsVal) (acc : Updates) : Except Response Updates :=
  match body.getProp (utf16 "completed") with
  | none => .error serverError
  | some .undefined => .ok acc
  | some v => .ok (acc.1 ++ ["completed = ?"], acc.2 ++ [.bool v.toBoolean])

/-- The three blocks in the order of the handler, from empty arrays. -/
def collectUpdates (numToString : JsNum → JsStr) (body : JsVal) : Except Response Updates :=
  match pushTitle numToString body ([], []) with
  | .error r => .error r
  | .ok acc1 =>
    match pushAuthor numToString body acc1 with
    | .error r => .error r
    | .ok acc2 => pushCompleted body acc2

/-- The handler `app.patch("/api/todos/:id")` (`index.js`, lines 74 to 131). -/
def updateTodo (numToString : JsNum → JsStr) (idParam : JsStr) (body : JsVal) (now : Nat)
    (db : Store) : Outcome :=
  let id := jsNumber idParam
  if !id.isFinite then ⟨⟨400, .message "Invalid ID"⟩, db, []⟩
  else
    match collectUpdates numToString body with
    | .error r => ⟨r, db, []⟩
    | .ok (updates, values) =>
      if updates.length = 0 then ⟨⟨400, .message "Nothing to update"⟩, db, []⟩
      else
        let update : Issued := ⟨updateSql updates, values ++ [.num id]⟩
        match execute (updateSql updates) (values ++ [.num id]) now db with
        | none => ⟨serverError, db, [update]⟩
        | some (result, db1) =>
          if result.affectedRows? = some 0 then
            ⟨⟨404, .message "Todo not found"⟩, db1, [update]⟩
          else
            let select : Issued := ⟨selectByIdSql, [.num id]⟩
            match execute selectByIdSql [.num id] now db1 with
            | none => ⟨serverError, db1, [update, select]⟩
            | some (rows, db2) =>
              match rows.first? with
              | none => ⟨serverError, db2, [update, select]⟩
              | some row => ⟨⟨200, .todo (coerceCompleted row)⟩, db2, [update, select]⟩

/-- The handler `app.delete("/api/todos/:id")` (`index.js`, lines 133 to 149). -/
def deleteTodo (idParam : JsStr) (now : Nat) (db : Store) : Outcome :=
  let id := jsNumber idParam
  if !id.isFinite then ⟨⟨400, .message "Invalid ID"⟩, db, []⟩
  else
    let delete : Issued := ⟨deleteSql, [.num id]⟩
    match execute deleteSql [.num id] now db with
    | none => ⟨serverError, db, [delete]⟩
    | some (result, db1) =>
      if result.affectedRows? = some 0 then
        ⟨⟨404, .message "Todo not found"⟩, db1, [delete]⟩
      else ⟨⟨204, .empty⟩, db1, [delete]⟩

/-- A request to the todo routes. -/
inductive Request where
  | list
  | create (body : JsVal)
  | update (idParam : JsStr) (body : JsVal)
  | delete (idParam : JsStr)

/-- Dispatch of a request arriving at time `now`. -/
def handle (numToString : JsNum → JsStr) (req : Request) (now : Nat) (db : Store) : Outcome :=
  match req with
  | .list => listTodos now db
  | .create body => createTodo numToString body now db
  | .update idParam body => updateTodo numToString idParam body now db
  | .delete idParam => deleteTodo idParam now db

/-- The store after a sequence of requests, each with its arrival time. -/
def run (numToString : JsNum → JsStr) (db : Store) : List (Nat × Request) → Store
  | [] => db
  | (now, req) :: rest => run numToString (handle numToString req now db).store rest


/-! ## Vocabulary of the specification -/

/-- A text the data model admits: non-empty and at most 255 code units. -/
def ValidText (s : JsStr) : Prop := s ≠ [] ∧ s.length ≤ 255

/-- The conversion the create handler applies to a field of the body:
`String(req.body?.field || "").trim()`, when `String` does not throw. -/
def createField (numToString : JsNum → JsStr) (body : JsVal) (field : JsStr) : Option JsStr :=
  (((body.optProp field).orEmpty).toStr numToString).map jsTrim

/-- A rendering of numbers used where a concrete one is needed; the handlers
are verified for every rendering. -/
def sampleNumToString : JsNum → JsStr := fun _ => utf16 "0"

/-- The object `{ title: t, author: a }`. -/
def titleAuthorBody (t a : JsVal) : JsVal :=
  .obj (.cons (utf16 "title") t (.cons (utf16 "author") a .nil))

/-- An object whose own `toString` property is the number `1`. -/
def hidesToString : JsVal := .obj (.cons (utf16 "toString") (.num (.fin 1 0)) .nil)

/-- The empty table. -/
def emptyStore : Store := ⟨[], 1⟩

/-- The invariant the store keeps by itself: the primary key `id` is unique
and every id present was handed out by the `AUTO_INCREMENT` counter. -/
def Store.WellFormed (db : Store) : Prop :=
  (db.rows.map Row.id).Nodup ∧ ∀ r ∈ db.rows, r.id < db.autoInc

/-- A store holding one todo, created at time 5. -/
def oneTodoStore : Store := ⟨[⟨1, utf16 "Buy milk", utf16 "alice", 0, 5, 5⟩], 2⟩

/-- The property `k` is not supplied: `req.body.k !== undefined` is false. -/
def Unsupplied (body : JsVal) (k : JsStr) : Prop := body.getProp k = some .undefined

/-- The columns and values the update handler collects when the trimmed title
`t?`, the trimmed author `a?` and the coerced `completed` flag `c?` are the
supplied fields (`none` for a field that is not supplied). -/
def planOf (t? a? : Option JsStr) (c? : Option Bool) : List Column × List SqlParam :=
  ((t?.map fun _ => Column.title).toList ++ (a?.map fun _ => Column.author).toList
      ++ (c?.map fun _ => Column.completed).toList,
   (t?.map SqlParam.str).toList ++ (a?.map SqlParam.str).toList
      ++ (c?.map SqlParam.bool).toList)

/-- A row after the assignments of `planOf`. -/
def Row.patched (r : Row) (t? a? : Option JsStr) (c? : Option Bool) : Row :=
  { r with
    title := t?.getD r.title
    author := a?.getD r.author
    completed := match c? with
      | some b => if b then 1 else 0
      | none => r.completed }

/-- A text field of an update body that is supplied, converts to a string and
is valid after trimming, giving `some` of the trimmed text, or is not supplied,
giving `none`. -/
def TextField (numToString : JsNum → JsStr) (body : JsVal) (k : JsStr) (x? : Option JsStr) :
    Prop :=
  match x? with
  | none => Unsupplied body k
  | some x => ValidText x ∧ ∃ v s, body.getProp k = some v ∧ v ≠ .undefined ∧
      v.toStr numToString = some s ∧ x = jsTrim s

/-- The `completed` field of an update body: supplied with truthiness `b`, or
not supplied. -/
def FlagField (body : JsVal) (c? : Option Bool) : Prop :=
  match c? with
  | none => Unsupplied body (utf16 "completed")
  | some b => ∃ v, body.getProp (utf16 "completed") = some v ∧ v ≠ .undefined ∧ v.toBoolean = b

/-- Effect of the service's `UPDATE` on one row, in terms of the supplied
fields. -/
def Row.updatedBy (t? a? : Option JsStr) (c? : Option Bool) (n : JsNum) (now : Nat) (r : Row) :
    Row :=
  updateRow (planOf t? a? c?).1 (planOf t? a? c?).2 n now r

/-- The body `{ completed: b }`. -/
def completedBody (b : Bool) : JsVal := .obj (.cons (utf16 "completed") (.bool b) .nil)

/-- Every persisted title and author is non-empty and at most 255 code
units long. -/
def Store.TextsValid (db : Store) : Prop :=
  ∀ r ∈ db.rows, ValidText r.title ∧ ValidText r.author

/-- The id `i` has been handed out and is no longer in the table. -/
def Store.Retired (db : Store) (i : Int) : Prop :=
  (∀ r ∈ db.rows, r.id ≠ i) ∧ i < db.autoInc

/-- The todos a response carries. -/
def Response.todos (res : Response) : List Todo :=
  match res.body with
  | .todo t => [t]
  | .todos ts => ts
  | _ => []

/-- A sequence of requests touching todo 1 and creating others. -/
def sampleRequests : List (Nat × Request) :=
  [(6, .create (titleAuthorBody (.str (utf16 " Walk dog ")) (.str (utf16 "bob")))),
   (7, .update (utf16 "1") (completedBody true)),
   (8, .delete (utf16 "1")),
   (9, .create (titleAuthorBody (.str (utf16 "x")) hidesToString)),
   (10, .list)]

/-- The body `{ title: "Buy bread", author: "   " }`: a valid title with an
author that is empty after trimming. -/
def blankAuthorBody : JsVal :=
  titleAuthorBody (.str (utf16 "Buy bread")) (.str (utf16 "   "))

/-! ## Vocabulary for the statement texts -/

/-- The value is `undefined`. -/
def JsVal.isUndefined : JsVal → Bool
  | .undefined => true
  | _ => false

/-- The test `req.body.k !== undefined` of the update handler (false when the
read itself throws). -/
def supplies (body : JsVal) (k : JsStr) : Bool :=
  match body.getProp k with
  | some v => !v.isUndefined
  | none => false

/-- The operation a request addresses, with the set of fields an update
supplies. -/
inductive Operation where
  | list
  | create
  | update (title author completed : Bool)
  | delete
  deriving DecidableEq, Repr

/-- The operation of a request. -/
def Request.operation : Request → Operation
  | .list => .list
  | .create _ => .create
  | .update _ body =>
    .update (supplies body (utf16 "title")) (supplies body (utf16 "author"))
      (supplies body (utf16 "completed"))
  | .delete _ => .delete

/-- The number of `?` placeholders in a statement text. -/
def placeholders (sql : String) : Nat := sql.toList.count '?'

/-- The columns of a set of supplied fields, in the order of the handler. -/
def columnsOf (title author completed : Bool) : List Column :=
  (if title then [Column.title] else []) ++ (if author then [Column.author] else [])
    ++ (if completed then [Column.completed] else [])

/-- The statement texts an operation hands to the store when it runs to its
end. -/
def operationTexts : Operation → List String
  | .list => [selectAllSql]
  | .create => [insertSql, selectByIdSql]
  | .update t a c => [updateSql ((columnsOf t a c).map Column.fragment), selectByIdSql]
  | .delete => [deleteSql]

/-- The body `{ title: t, completed: b }`. -/
def titleCompletedBody (t : JsVal) (b : Bool) : JsVal :=
  .obj (.cons (utf16 "title") t (.cons (utf16 "completed") (.bool b) .nil))

/-! ## The script `scripts/ci/create-clean-db.mjs` -/

/-- The code unit is in the class `[a-zA-Z0-9_]`. -/
def isNameUnit (c : CodeUnit) : Bool :=
  (0x61 ≤ c.val && c.val ≤ 0x7A) || (0x41 ≤ c.val && c.val ≤ 0x5A) ||
  (0x30 ≤ c.val && c.val ≤ 0x39) || c.val == 0x5F

/-- The replacement `.replace(/[^a-zA-Z0-9_]/g, "_")`: the pattern has no `u`
flag, so it runs over code units. -/
def sanitizeName (s : JsStr) : JsStr :=
  s.map fun c => if isNameUnit c then c else (0x5F : CodeUnit)

/-- The expression `process.env.NAME || fallback`: an unset or empty variable
gives the fallback. -/
def envOr (value : Option JsStr) (fallback : JsStr) : JsStr :=
  match value with
  | some v => if v = [] then fallback else v
  | none => fallback

/-- The text of a non-negative integer in a template literal, as for
`Date.now()`. -/
def decimalText (n : Nat) : JsStr := (Nat.toDigits 10 n).flatMap utf16Char

/-- The function `buildDbName` (`create-clean-db.mjs`, lines 27 to 35), given
the two environment variables and the clock; the error is the thrown message
prefix. -/
def buildDbName (runIdEnv attemptEnv : Option JsStr) (dateNow : Nat) : Except String JsStr :=
  let runId := envOr runIdEnv (decimalText dateNow)
  let attempt := envOr attemptEnv (utf16 "1")
  let dbName := sanitizeName (utf16 "ci_" ++ runId ++ utf16 "_" ++ attempt)
  if !(dbName ≠ [] ∧ dbName.all isNameUnit) then
    .error "Generated database name is invalid"
  else .ok dbName

/-- The replacement `dbName.replace(/[backtick]/g, ...)` of `main`, which
doubles every backtick (code unit `0x60`). -/
def escapeBackticks (s : JsStr) : JsStr :=
  s.flatMap fun c => if c.val = 0x60 then [c, c] else [c]

/-! ## The client `client/src/App.jsx` -/

/-- A call of the client's `request(path, options)`: the method, the path
after the API base URL, and the value handed to `JSON.stringify` as the body
(which the service's JSON parser reads back as the same value). -/
structure ClientRequest where
  method : String
  path : String
  body : JsVal

/-- The function `onCreate` (`App.jsx`, lines 59 to 80), given the `title`
state: the request it issues, or `none` when it returns early because the
trimmed title is empty. -/
def onCreate (title : JsStr) : Option ClientRequest :=
  let nextTitle := jsTrim title
  if nextTitle = [] then none
  else some ⟨"POST", "/api/todos", .obj (.cons (utf16 "title") (.str nextTitle) .nil)⟩

/-! ## The script `scripts/ci/run-migrations.mjs` -/

/-- What the script finds at a path: nothing (`fileExists` is false), something
that is not a directory (`fs.readdir` throws), or a directory with its entry
names. -/
inductive DirState where
  | missing
  | notDirectory
  | entries (names : List JsStr)

/-- The test `entry.endsWith(".sql")`. -/
def endsWithSql (entry : JsStr) : Bool := (utf16 ".sql").isSuffixOf entry

/-- The call `path.join(dir, rel)` on POSIX for a normalised directory path and
a relative path that needs no normalisation (a constant of `sqlDirs`, or an
entry name returned by `fs.readdir`): the two parts with one `/` between. -/
def pathJoin (dir rel : JsStr) : JsStr :=
  if dir.getLast? = some (0x2F : CodeUnit) then dir ++ rel else dir ++ utf16 "/" ++ rel

/-- The constant `sqlDirs` of `collectSqlMigrations`. -/
def sqlDirs : List JsStr :=
  [utf16 "migrations", utf16 "server/migrations", utf16 "db/migrations"]

/-- The loop `for (const dir of sqlDirs)` of `collectSqlMigrations`, with the
`files` array collected so far; `none` when `fs.readdir` throws. -/
def collectFrom (cwd : JsStr) (fs : JsStr → DirState) : List JsStr → List JsStr →
    Option (List JsStr)
  | [], files => some files
  | dir :: rest, files =>
    match fs (pathJoin cwd dir) with
    | .missing => collectFrom cwd fs rest files
    | .notDirectory => none
    | .entries names =>
      collectFrom cwd fs rest
        (files ++ (names.filter endsWithSql).map (pathJoin (pathJoin cwd dir)))

/-- The function `collectSqlMigrations` (`run-migrations.mjs`, lines 62 to 81).
The comparator `localeCompare` of the runtime is a parameter; `Array.sort`
with a consistent comparator is a stable sort. -/
def collectSqlMigrations (localeCompare : JsStr → JsStr → Int) (cwd : JsStr)
    (fs : JsStr → DirState) : Option (List JsStr) :=
  (collectFrom cwd fs sqlDirs []).map fun files =>
    files.insertionSort (fun a b => localeCompare a b ≤ 0)

/-- The function `runSqlMigrations` (lines 100 to 122) up to its loop: the files
it reads and applies, in the order of the loop, or the error it throws before
connecting. -/
def runSqlMigrations (localeCompare : JsStr → JsStr → Int) (cwd : JsStr)
    (fs : JsStr → DirState) (databaseUrl : Option JsStr) : Except String (List JsStr) :=
  match databaseUrl with
  | none => .error "DATABASE_URL is required for SQL migrations"
  | some url =>
    if url = [] then .error "DATABASE_URL is required for SQL migrations"
    else
      match collectSqlMigrations localeCompare cwd fs with
      | none => .error "readdir failed"
      | some files =>
        if files.length = 0 then
          .error "No migration tool detected and no SQL files found in migrations/ directories"
        else .ok files

/-- The last component of a path. -/
def baseName (p : JsStr) : JsStr :=
  (p.reverse.takeWhile fun c => c.val != 0x2F).reverse

/-- Comparison of two strings code unit by code unit: the order `localeCompare`
gives to strings that first differ in two digits or in two lower-case Latin
letters. -/
def codeUnitCompare : JsStr → JsStr → Int
  | [], [] => 0
  | [], _ :: _ => -1
  | _ :: _, [] => 1
  | a :: as, b :: bs =>
    if a.val < b.val then -1
    else if b.val < a.val then 1
    else codeUnitCompare as bs

/-- A working directory `/w` with `migrations/001.sql`, `migrations/notes.txt`
and `db/migrations/002.sql`. -/
def sampleTree (p : JsStr) : DirState :=
  if p = utf16 "/w/migrations" then .entries [utf16 "notes.txt", utf16 "001.sql"]
  else if p = utf16 "/w/db/migrations" then .entries [utf16 "002.sql"]
  else .missing

/-! ## The store's reading of the service's statements -/

theorem parseSql_selectAll : parseSql selectAllSql = some .selectAll := by decide

theorem parseSql_selectById : parseSql selectByIdSql = some .selectById := by decide

theorem parseSql_insert : parseSql insertSql = some .insert := by decide

theorem parseSql_delete : parseSql deleteSql = some .delete := by decide

theorem parseSql_update :
    ∀ cols ∈ updateShapes, parseSql (updateSql (cols.map Column.fragment)) = some (.update cols) := by
  decide

theorem execute_selectAll (now : Nat) (db : Store) :
    execute selectAllSql [] now db
      = some (.rows ((newestFirst db.rows).map Row.toTodo), db) := by
  simp [execute, parseSql_selectAll]

theorem execute_selectById (n : JsNum) (now : Nat) (db : Store) :
    execute selectByIdSql [.num n] now db
      = some (.rows ((db.rows.filter (Row.hasId n)).map Row.toTodo), db) := by
  simp [execute, parseSql_selectById]

theorem execute_insert (title author : JsStr) (now : Nat) (db : Store) :
    execute insertSql [.str title, .str author] now db
      = some (.header 1 db.autoInc,
          { rows := db.rows ++ [newRow db title author now], autoInc := db.autoInc + 1 }) := by
  simp [execute, parseSql_insert]

theorem execute_delete (n : JsNum) (now : Nat) (db : Store) :
    execute deleteSql [.num n] now db
      = some (.header (db.rows.countP (Row.hasId n)) 0,
          { db with rows := db.rows.filter (fun r => !r.hasId n) }) := by
  simp [execute, parseSql_delete]

theorem execute_update (cols : List Column) (hc : cols ∈ updateShapes) (vals : List SqlParam)
    (hv : wellBound cols vals = true) (n : JsNum) (now : Nat) (db : Store) :
    execute (updateSql (cols.map Column.fragment)) (vals ++ [.num n]) now db
      = some (.header (db.rows.countP (Row.hasId n)) 0,
          { db with rows := db.rows.map (updateRow cols vals n now) }) := by
  simp [execute, parseSql_update cols hc, hv]

/-! ## Facts about numbers and rows -/

theorem pow10_pos (k : Nat) : 0 < JsNum.pow10 k := by
  induction k with
  | zero => simp [JsNum.pow10]
  | succ k ih => simp only [JsNum.pow10]; omega

theorem eqInt_ofInt (i : Int) : (JsNum.ofInt i).eqInt i = true := by
  simp [JsNum.ofInt, JsNum.eqInt, JsNum.pow10]

theorem eqInt_unique {n : JsNum} {i j : Int} (hi : n.eqInt i = true) (hj : n.eqInt j = true) :
    i = j := by
  cases n with
  | fin m e =>
    simp only [JsNum.eqInt] at hi hj
    by_cases he : 0 ≤ e
    · simp only [he, if_true, beq_iff_eq] at hi hj
      rw [← hi, ← hj]
    · simp only [he, if_false, beq_iff_eq] at hi hj
      have hp : ((JsNum.pow10 (-e).toNat : Nat) : Int) ≠ 0 := by
        have := pow10_pos (-e).toNat
        omega
      exact Int.eq_of_mul_eq_mul_right hp (hi.symm.trans hj)
  | nan => simp [JsNum.eqInt] at hi
  | posInf => simp [JsNum.eqInt] at hi
  | negInf => simp [JsNum.eqInt] at hi

set_option maxRecDepth 100000 in
/-- Sample conversions of `Number`: exact small values, a tie that goes to the
even mantissa, the doubles of `0.1` and `1e23`, and a fraction too fine for a
double, which rounds to `1`. -/
theorem jsNumber_rounds :
    jsNumber (utf16 "1") = .fin 1 0 ∧ jsNumber (utf16 "1.5") = .fin 15 (-1) ∧
    jsNumber (utf16 "9007199254740993") = .fin 9007199254740992 0 ∧
    jsNumber (utf16 "9007199254740995") = .fin 9007199254740996 0 ∧
    (jsNumber (utf16 "0.1")).eqInt 0 = false ∧
    jsNumber (utf16 "1e23") = .fin 99999999999999991611392 0 ∧
    jsNumber (utf16 "1.00000000000000000000001") = .fin 1 0 := by
  decide

set_option maxRecDepth 100000 in
/-- The id segment `1.00000000000000000000001` converts to the double `1`, so
an update and a delete with it address todo 1. -/
theorem rounded_id_selects_row :
    (updateTodo sampleNumToString (utf16 "1.00000000000000000000001") (completedBody true) 9
      oneTodoStore).response.status = 200 ∧
    (deleteTodo (utf16 "1.00000000000000000000001") 9 oneTodoStore).response.status = 204 ∧
    (deleteTodo (utf16 "1.00000000000000000000001") 9 oneTodoStore).store.rows = [] := by
  decide

theorem isFinite_of_eqInt {n : JsNum} {i : Int} (h : n.eqInt i = true) : n.isFinite = true := by
  cases n <;> simp_all [JsNum.eqInt, JsNum.isFinite]

theorem coerceCompleted_toTodo (r : Row) :
    coerceCompleted r.toTodo
      = { id := r.id, title := r.title, author := r.author,
          completed := .bool (r.completed != 0),
          createdAt := r.created_at, updatedAt := r.updated_at } := by
  simp [coerceCompleted, Row.toTodo, JsVal.toBoolean, JsNum.toBoolean, JsNum.ofInt]

/-! ## Create -/

theorem createTodo_of_valid (numToString : JsNum → JsStr) (body : JsVal) (now : Nat)
    (db : Store) (t a : JsStr)
    (ht : createField numToString body (utf16 "title") = some t)
    (ha : createField numToString body (utf16 "author") = some a)
    (hvt : ValidText t) (hva : ValidText a) :
    ∃ row,
      ((db.rows ++ [newRow db t a now]).filter (Row.hasId (JsNum.ofInt db.autoInc))).head?
        = some row ∧
      createTodo numToString body now db
        = ⟨⟨201, .todo (coerceCompleted row.toTodo)⟩,
           { rows := db.rows ++ [newRow db t a now], autoInc := db.autoInc + 1 },
           [⟨insertSql, [.str t, .str a]⟩,
            ⟨selectByIdSql, [.num (JsNum.ofInt db.autoInc)]⟩]⟩ := by
  obtain ⟨t0, ht0, rfl⟩ := Option.map_eq_some'.mp ht
  obtain ⟨a0, ha0, rfl⟩ := Option.map_eq_some'.mp ha
  have hne : (db.rows ++ [newRow db (jsTrim t0) (jsTrim a0) now]).filter
      (Row.hasId (JsNum.ofInt db.autoInc)) ≠ [] := by
    simp [List.filter_append, Row.hasId, newRow, eqInt_ofInt]
  obtain ⟨row, hrow⟩ : ∃ row, ((db.rows ++ [newRow db (jsTrim t0) (jsTrim a0) now]).filter
      (Row.hasId (JsNum.ofInt db.autoInc))).head? = some row := by
    cases h : (db.rows ++ [newRow db (jsTrim t0) (jsTrim a0) now]).filter
      (Row.hasId (JsNum.ofInt db.autoInc)) with
    | nil => exact absurd h hne
    | cons r rs => exact ⟨r, rfl⟩
  refine ⟨row, hrow, ?_⟩
  have h1 : ¬ 255 < (jsTrim t0).length := by have := hvt.2; omega
  have h2 : ¬ 255 < (jsTrim a0).length := by have := hva.2; omega
  simp only [createTodo, ht0, ha0, hvt.1, hva.1, h1, h2, if_false, gt_iff_lt, execute_insert,
    execute_selectById, QueryResult.insertId?, QueryResult.first?, List.head?_map,
    hrow, Option.map_some']

theorem createTodo_of_invalid (numToString : JsNum → JsStr) (body : JsVal) (now : Nat)
    (db : Store) (t a : JsStr)
    (ht : createField numToString body (utf16 "title") = some t)
    (ha : createField numToString body (utf16 "author") = some a)
    (hbad : ¬ (ValidText t ∧ ValidText a)) :
    ∃ text, createTodo numToString body now db = ⟨⟨400, .message text⟩, db, []⟩ ∧
      (t = [] → text = "Title is required") := by
  obtain ⟨t0, ht0, rfl⟩ := Option.map_eq_some'.mp ht
  obtain ⟨a0, ha0, rfl⟩ := Option.map_eq_some'.mp ha
  simp only [createTodo, ht0, ha0]
  by_cases h1 : jsTrim t0 = []
  · exact ⟨"Title is required", by simp only [h1, if_true], fun _ => rfl⟩
  by_cases h2 : jsTrim a0 = []
  · exact ⟨"Author is required", by simp only [h1, h2, if_true, if_false],
      fun h => absurd h h1⟩
  by_cases h3 : (jsTrim t0).length > 255
  · exact ⟨"Title must be 255 characters or fewer",
      by simp only [h1, h2, h3, if_true, if_false], fun h => absurd h h1⟩
  by_cases h4 : (jsTrim a0).length > 255
  · exact ⟨"Author must be 255 characters or fewer",
      by simp only [h1, h2, h3, h4, if_true, if_false], fun h => absurd h h1⟩
  · exact absurd ⟨⟨h1, by omega⟩, ⟨h2, by omega⟩⟩ hbad

/-- C1 (amended): for every create request body whose title and author both
convert to a string (`String(field || "")` does not throw), the handler
answers 400 exactly when the trimmed title or the trimmed author is empty or
longer than 255 code units; when the trimmed title is empty the body is
`{message: "Title is required"}` whatever the author converts to; in every
other case it answers 201. -/
theorem createTodo_validation (numToString : JsNum → JsStr) (body : JsVal) (now : Nat)
    (db : Store) (t a : JsStr)
    (ht : createField numToString body (utf16 "title") = some t)
    (ha : createField numToString body (utf16 "author") = some a) :
    ((createTodo numToString body now db).response.status = 400
        ↔ ¬ ValidText t ∨ ¬ ValidText a) ∧
    (t = [] → (createTodo numToString body now db).response.body
        = .message "Title is required") ∧
    (ValidText t ∧ ValidText a → (createTodo numToString body now db).response.status = 201) := by
  by_cases hv : ValidText t ∧ ValidText a
  · obtain ⟨row, -, hcreate⟩ := createTodo_of_valid numToString body now db t a ht ha hv.1 hv.2
    rw [hcreate]
    refine ⟨⟨fun h => absurd h (by simp), fun h => ?_⟩, fun h => absurd h hv.1.1, fun _ => rfl⟩
    rcases h with h | h
    · exact absurd hv.1 h
    · exact absurd hv.2 h
  · obtain ⟨text, hcreate, htitle⟩ := createTodo_of_invalid numToString body now db t a ht ha hv
    rw [hcreate]
    refine ⟨⟨fun _ => ?_, fun _ => rfl⟩, fun h => ?_, fun h => absurd h hv⟩
    · by_cases h1 : ValidText t
      · exact Or.inr (fun h2 => hv ⟨h1, h2⟩)
      · exact Or.inl h1
    · simp only [htitle h]

/-- Witness of C1 (amended): the body `{title: " Buy milk ", author: "alice"}`. -/
theorem createTodo_validation_witness :
    ((createTodo sampleNumToString
        (titleAuthorBody (.str (utf16 " Buy milk ")) (.str (utf16 "alice"))) 5
        emptyStore).response.status = 400
        ↔ ¬ ValidText (utf16 "Buy milk") ∨ ¬ ValidText (utf16 "alice")) ∧
    (utf16 "Buy milk" = [] → (createTodo sampleNumToString
        (titleAuthorBody (.str (utf16 " Buy milk ")) (.str (utf16 "alice"))) 5
        emptyStore).response.body = .message "Title is required") ∧
    (ValidText (utf16 "Buy milk") ∧ ValidText (utf16 "alice") → (createTodo sampleNumToString
        (titleAuthorBody (.str (utf16 " Buy milk ")) (.str (utf16 "alice"))) 5
        emptyStore).response.status = 201) :=
  createTodo_validation sampleNumToString
    (titleAuthorBody (.str (utf16 " Buy milk ")) (.str (utf16 "alice"))) 5 emptyStore
    (utf16 "Buy milk") (utf16 "alice") (by decide) (by decide)

/-- C1 as stated fails: a title that is an object with its own `toString`
property makes `String(...)` throw, and the request is answered 500, neither
400 nor 201; with an empty title and such an author the answer is 500 too, not
400 `Title is required`. -/
theorem createTodo_conversion_failure :
    (createTodo sampleNumToString
        (titleAuthorBody hidesToString (.str (utf16 "alice"))) 5 emptyStore).response.status
      = 500 ∧
    createField sampleNumToString (titleAuthorBody (.str []) hidesToString) (utf16 "title")
      = some [] ∧
    (createTodo sampleNumToString
        (titleAuthorBody (.str []) hidesToString) 5 emptyStore).response.status = 500 := by
  decide

/-! ## List -/

theorem listTodos_eq (now : Nat) (db : Store) :
    listTodos now db
      = ⟨⟨200, .todos (((newestFirst db.rows).map Row.toTodo).map coerceCompleted)⟩, db,
         [⟨selectAllSql, []⟩]⟩ := by
  simp only [listTodos, execute_selectAll]

theorem newestFirst_perm (rows : List Row) : (newestFirst rows).Perm rows :=
  List.perm_insertionSort _ rows

theorem mem_newestFirst {rows : List Row} {r : Row} : r ∈ newestFirst rows ↔ r ∈ rows :=
  (newestFirst_perm rows).mem_iff

theorem filter_hasId_fresh (db : Store) (hwf : db.WellFormed) (r : Row) (hr : r.id = db.autoInc) :
    (db.rows ++ [r]).filter (Row.hasId (JsNum.ofInt db.autoInc)) = [r] := by
  have hnone : db.rows.filter (Row.hasId (JsNum.ofInt db.autoInc)) = [] := by
    rw [List.filter_eq_nil_iff]
    intro x hx hid
    have := eqInt_unique hid (eqInt_ofInt db.autoInc)
    have := hwf.2 x hx
    omega
  have hself : Row.hasId (JsNum.ofInt db.autoInc) r = true := by
    simp only [Row.hasId, hr, eqInt_ofInt]
  simp [List.filter_append, hnone, hself]

/-- C2: on a well-formed store, a create request whose title and author are
strings with trimmed forms of 1 to 255 code units is answered 201 with a todo
that carries the counter's fresh id, the trimmed title and author,
`completed = false` and `createdAt = updatedAt`; the list after the request is
a permutation of that todo together with the list before it, and no todo of
the earlier list has the new id. -/
theorem create_then_list (numToString : JsNum → JsStr) (body : JsVal) (t a : JsStr)
    (now earlier later : Nat) (db : Store) (hwf : db.WellFormed)
    (ht : body.optProp (utf16 "title") = .str t)
    (ha : body.optProp (utf16 "author") = .str a)
    (hvt : ValidText (jsTrim t)) (hva : ValidText (jsTrim a)) :
    ∃ todo before after,
      (createTodo numToString body now db).response.status = 201 ∧
      (createTodo numToString body now db).response.body = .todo todo ∧
      todo.id = db.autoInc ∧ todo.title = jsTrim t ∧ todo.author = jsTrim a ∧
      todo.completed = .bool false ∧ todo.createdAt = todo.updatedAt ∧
      (listTodos earlier db).response.body = .todos before ∧
      (listTodos later (createTodo numToString body now db).store).response.body
        = .todos after ∧
      after.Perm (todo :: before) ∧
      (∀ x ∈ before, x.id ≠ todo.id) := by
  have hft : createField numToString body (utf16 "title") = some (jsTrim t) := by
    simp only [createField, ht, JsVal.orEmpty, JsVal.toBoolean]
    by_cases h : t = [] <;> simp [h, JsVal.toStr]
  have hfa : createField numToString body (utf16 "author") = some (jsTrim a) := by
    simp only [createField, ha, JsVal.orEmpty, JsVal.toBoolean]
    by_cases h : a = [] <;> simp [h, JsVal.toStr]
  obtain ⟨row, hrow, hcreate⟩ :=
    createTodo_of_valid numToString body now db (jsTrim t) (jsTrim a) hft hfa hvt hva
  rw [filter_hasId_fresh db hwf _ rfl] at hrow
  simp only [List.head?_cons, Option.some.injEq] at hrow
  subst hrow
  refine ⟨coerceCompleted (newRow db (jsTrim t) (jsTrim a) now).toTodo,
    ((newestFirst db.rows).map Row.toTodo).map coerceCompleted,
    ((newestFirst (db.rows ++ [newRow db (jsTrim t) (jsTrim a) now])).map Row.toTodo).map
      coerceCompleted, ?_, ?_, ?_, ?_, ?_, ?_, ?_, ?_, ?_, ?_, ?_⟩
  · rw [hcreate]
  · rw [hcreate]
  · simp [coerceCompleted_toTodo, newRow]
  · simp [coerceCompleted_toTodo, newRow]
  · simp [coerceCompleted_toTodo, newRow]
  · simp [coerceCompleted_toTodo, newRow]
  · simp [coerceCompleted_toTodo, newRow]
  · rw [listTodos_eq]
  · rw [hcreate, listTodos_eq]
  · rw [List.map_map, List.map_map]
    refine (List.Perm.map _ ?_ :
      (List.map (coerceCompleted ∘ Row.toTodo) _).Perm
        (List.map (coerceCompleted ∘ Row.toTodo)
          (newRow db (jsTrim t) (jsTrim a) now :: newestFirst db.rows)))
    refine (newestFirst_perm _).trans ?_
    refine List.Perm.trans (List.perm_append_comm) ?_
    exact List.Perm.cons _ (newestFirst_perm _).symm
  · intro x hx
    simp only [List.mem_map] at hx
    obtain ⟨y, ⟨r, hr, rfl⟩, rfl⟩ := hx
    have := hwf.2 r (mem_newestFirst.mp hr)
    simp only [coerceCompleted_toTodo, newRow]
    omega

/-- Witness of C2: `{title: " Buy milk ", author: "alice"}` on a store that
already holds one todo. -/
theorem create_then_list_witness :
    ∃ todo before after,
      (createTodo sampleNumToString
        (titleAuthorBody (.str (utf16 " Buy milk ")) (.str (utf16 "alice"))) 7
        oneTodoStore).response.status = 201 ∧
      (createTodo sampleNumToString
        (titleAuthorBody (.str (utf16 " Buy milk ")) (.str (utf16 "alice"))) 7
        oneTodoStore).response.body = .todo todo ∧
      todo.id = oneTodoStore.autoInc ∧ todo.title = jsTrim (utf16 " Buy milk ") ∧
      todo.author = jsTrim (utf16 "alice") ∧
      todo.completed = .bool false ∧ todo.createdAt = todo.updatedAt ∧
      (listTodos 6 oneTodoStore).response.body = .todos before ∧
      (listTodos 8 (createTodo sampleNumToString
        (titleAuthorBody (.str (utf16 " Buy milk ")) (.str (utf16 "alice"))) 7
        oneTodoStore).store).response.body = .todos after ∧
      after.Perm (todo :: before) ∧
      (∀ x ∈ before, x.id ≠ todo.id) :=
  create_then_list sampleNumToString
    (titleAuthorBody (.str (utf16 " Buy milk ")) (.str (utf16 "alice")))
    (utf16 " Buy milk ") (utf16 "alice") 7 6 8 oneTodoStore
    (by unfold Store.WellFormed; decide) rfl rfl
    (by unfold ValidText; decide) (by unfold ValidText; decide)

/-! ## Update: the collected columns and values -/

theorem pushTitle_ok {numToString : JsNum → JsStr} {body : JsVal} {acc acc1 : Updates}
    (h : pushTitle numToString body acc = .ok acc1) :
    ∃ t?, TextField numToString body (utf16 "title") t? ∧
      acc1 = (acc.1 ++ (t?.map fun _ => Column.title.fragment).toList,
              acc.2 ++ (t?.map SqlParam.str).toList) := by
  unfold pushTitle at h
  cases hg : body.getProp (utf16 "title") with
  | none => simp [hg] at h
  | some v =>
    by_cases hu : v = .undefined
    · subst hu
      simp only [hg, Except.ok.injEq] at h
      exact ⟨none, hg, by simp [← h]⟩
    · cases hs : v.toStr numToString with
      | none => cases v <;> simp_all
      | some s =>
        by_cases h1 : jsTrim s = []
        · cases v <;> simp_all
        by_cases h2 : (jsTrim s).length > 255
        · cases v <;> simp_all
        have h3 : acc1 = (acc.1 ++ ["title = ?"], acc.2 ++ [.str (jsTrim s)]) := by
          cases v <;> simp_all
        refine ⟨some (jsTrim s), ⟨⟨h1, by omega⟩, v, s, hg, hu, hs, rfl⟩, ?_⟩
        simp [h3, Column.fragment]

theorem pushAuthor_ok {numToString : JsNum → JsStr} {body : JsVal} {acc acc1 : Updates}
    (h : pushAuthor numToString body acc = .ok acc1) :
    ∃ a?, TextField numToString body (utf16 "author") a? ∧
      acc1 = (acc.1 ++ (a?.map fun _ => Column.author.fragment).toList,
              acc.2 ++ (a?.map SqlParam.str).toList) := by
  unfold pushAuthor at h
  cases hg : body.getProp (utf16 "author") with
  | none => simp [hg] at h
  | some v =>
    by_cases hu : v = .undefined
    · subst hu
      simp only [hg, Except.ok.injEq] at h
      exact ⟨none, hg, by simp [← h]⟩
    · cases hs : v.toStr numToString with
      | none => cases v <;> simp_all
      | some s =>
        by_cases h1 : jsTrim s = []
        · cases v <;> simp_all
        by_cases h2 : (jsTrim s).length > 255
        · cases v <;> simp_all
        have h3 : acc1 = (acc.1 ++ ["author = ?"], acc.2 ++ [.str (jsTrim s)]) := by
          cases v <;> simp_all
        refine ⟨some (jsTrim s), ⟨⟨h1, by omega⟩, v, s, hg, hu, hs, rfl⟩, ?_⟩
        simp [h3, Column.fragment]

theorem pushCompleted_ok {body : JsVal} {acc acc1 : Updates}
    (h : pushCompleted body acc = .ok acc1) :
    ∃ c?, FlagField body c? ∧
      acc1 = (acc.1 ++ (c?.map fun _ => Column.completed.fragment).toList,
              acc.2 ++ (c?.map SqlParam.bool).toList) := by
  unfold pushCompleted at h
  cases hg : body.getProp (utf16 "completed") with
  | none => simp [hg] at h
  | some v =>
    by_cases hu : v = .undefined
    · subst hu
      simp only [hg, Except.ok.injEq] at h
      exact ⟨none, hg, by simp [← h]⟩
    · have h3 : acc1 = (acc.1 ++ ["completed = ?"], acc.2 ++ [.bool v.toBoolean]) := by
        cases v <;> simp_all
      exact ⟨some v.toBoolean, ⟨v, hg, hu, rfl⟩, by simp [h3, Column.fragment]⟩

theorem collectUpdates_ok {numToString : JsNum → JsStr} {body : JsVal} {acc : Updates}
    (h : collectUpdates numToString body = .ok acc) :
    ∃ t? a? c?, TextField numToString body (utf16 "title") t? ∧
      TextField numToString body (utf16 "author") a? ∧ FlagField body c? ∧
      acc = ((planOf t? a? c?).1.map Column.fragment, (planOf t? a? c?).2) := by
  unfold collectUpdates at h
  cases h1 : pushTitle numToString body ([], []) with
  | error r => simp [h1] at h
  | ok acc1 =>
    cases h2 : pushAuthor numToString body acc1 with
    | error r => simp [h1, h2] at h
    | ok acc2 =>
      simp only [h1, h2] at h
      obtain ⟨t?, ht, rfl⟩ := pushTitle_ok h1
      obtain ⟨a?, ha, rfl⟩ := pushAuthor_ok h2
      obtain ⟨c?, hc, rfl⟩ := pushCompleted_ok h
      refine ⟨t?, a?, c?, ht, ha, hc, ?_⟩
      cases t? <;> cases a? <;> cases c? <;> simp [planOf]

theorem pushTitle_of_field {numToString : JsNum → JsStr} {body : JsVal} {t? : Option JsStr}
    (h : TextField numToString body (utf16 "title") t?) (acc : Updates) :
    pushTitle numToString body acc
      = .ok (acc.1 ++ (t?.map fun _ => Column.title.fragment).toList,
             acc.2 ++ (t?.map SqlParam.str).toList) := by
  cases t? with
  | none =>
    have hg : body.getProp (utf16 "title") = some .undefined := h
    simp [pushTitle, hg]
  | some x =>
    obtain ⟨hv, v, s, hg, hu, hs, rfl⟩ := h
    have h2 : ¬ (jsTrim s).length > 255 := by have := hv.2; omega
    cases v <;> simp_all [pushTitle, Column.fragment, hv.1]

theorem pushAuthor_of_field {numToString : JsNum → JsStr} {body : JsVal} {a? : Option JsStr}
    (h : TextField numToString body (utf16 "author") a?) (acc : Updates) :
    pushAuthor numToString body acc
      = .ok (acc.1 ++ (a?.map fun _ => Column.author.fragment).toList,
             acc.2 ++ (a?.map SqlParam.str).toList) := by
  cases a? with
  | none =>
    have hg : body.getProp (utf16 "author") = some .undefined := h
    simp [pushAuthor, hg]
  | some x =>
    obtain ⟨hv, v, s, hg, hu, hs, rfl⟩ := h
    have h2 : ¬ (jsTrim s).length > 255 := by have := hv.2; omega
    cases v <;> simp_all [pushAuthor, Column.fragment, hv.1]

theorem pushCompleted_of_field {body : JsVal} {c? : Option Bool} (h : FlagField body c?)
    (acc : Updates) :
    pushCompleted body acc
      = .ok (acc.1 ++ (c?.map fun _ => Column.completed.fragment).toList,
             acc.2 ++ (c?.map SqlParam.bool).toList) := by
  cases c? with
  | none =>
    have hg : body.getProp (utf16 "completed") = some .undefined := h
    simp [pushCompleted, hg]
  | some b =>
    obtain ⟨v, hg, hu, rfl⟩ := h
    cases v <;> simp_all [pushCompleted, Column.fragment]

theorem collectUpdates_of_fields {numToString : JsNum → JsStr} {body : JsVal}
    {t? a? : Option JsStr} {c? : Option Bool}
    (ht : TextField numToString body (utf16 "title") t?)
    (ha : TextField numToString body (utf16 "author") a?) (hc : FlagField body c?) :
    collectUpdates numToString body
      = .ok ((planOf t? a? c?).1.map Column.fragment, (planOf t? a? c?).2) := by
  simp only [collectUpdates, pushTitle_of_field ht, pushAuthor_of_field ha,
    pushCompleted_of_field hc]
  cases t? <;> cases a? <;> cases c? <;> simp [planOf]

theorem planOf_shape (t? a? : Option JsStr) (c? : Option Bool) :
    (planOf t? a? c?).1 = [] ∧ t? = none ∧ a? = none ∧ c? = none
      ∨ (planOf t? a? c?).1 ∈ updateShapes := by
  cases t? <;> cases a? <;> cases c? <;> simp [planOf, updateShapes]

theorem wellBound_planOf (t? a? : Option JsStr) (c? : Option Bool) :
    wellBound (planOf t? a? c?).1 (planOf t? a? c?).2 = true := by
  cases t? <;> cases a? <;> cases c? <;> simp [planOf, wellBound, Column.accepts]

theorem assignAll_planOf (r : Row) (t? a? : Option JsStr) (c? : Option Bool) :
    assignAll r (planOf t? a? c?).1 (planOf t? a? c?).2 = r.patched t? a? c? := by
  cases t? <;> cases a? <;> cases c? <;> simp [planOf, assignAll, assign, Row.patched]

/-! ## Update: the handler in closed form -/

theorem updatedBy_eq (r : Row) (t? a? : Option JsStr) (c? : Option Bool) (n : JsNum)
    (now : Nat) :
    r.updatedBy t? a? c? n now
      = if r.hasId n then
          (if r.patched t? a? c? = r then r else { r.patched t? a? c? with updated_at := now })
        else r := by
  simp only [Row.updatedBy, updateRow, assignAll_planOf]

theorem updatedBy_id (r : Row) (t? a? : Option JsStr) (c? : Option Bool) (n : JsNum)
    (now : Nat) : (r.updatedBy t? a? c? n now).id = r.id := by
  rw [updatedBy_eq]
  split
  · split <;> simp [Row.patched]
  · rfl

theorem updatedBy_created_at (r : Row) (t? a? : Option JsStr) (c? : Option Bool) (n : JsNum)
    (now : Nat) : (r.updatedBy t? a? c? n now).created_at = r.created_at := by
  rw [updatedBy_eq]
  split
  · split <;> simp [Row.patched]
  · rfl

theorem updatedBy_of_not_hasId (r : Row) (t? a? : Option JsStr) (c? : Option Bool) (n : JsNum)
    (now : Nat) (h : r.hasId n = false) : r.updatedBy t? a? c? n now = r := by
  rw [updatedBy_eq]
  simp [h]

theorem updatedBy_hasId (r : Row) (t? a? : Option JsStr) (c? : Option Bool) (n m : JsNum)
    (now : Nat) : (r.updatedBy t? a? c? n now).hasId m = r.hasId m := by
  simp only [Row.hasId, updatedBy_id]

theorem filter_hasId_map_updatedBy (rows : List Row) (t? a? : Option JsStr) (c? : Option Bool)
    (n : JsNum) (now : Nat) :
    (rows.map (Row.updatedBy t? a? c? n now)).filter (Row.hasId n)
      = (rows.filter (Row.hasId n)).map (Row.updatedBy t? a? c? n now) := by
  induction rows with
  | nil => rfl
  | cons r rs ih =>
    simp only [List.map_cons, List.filter_cons, updatedBy_hasId, ih]
    split <;> simp

theorem map_updatedBy_of_no_match (rows : List Row) (t? a? : Option JsStr) (c? : Option Bool)
    (n : JsNum) (now : Nat) (h : rows.filter (Row.hasId n) = []) :
    (rows.map (Row.updatedBy t? a? c? n now)) = rows := by
  rw [List.filter_eq_nil_iff] at h
  conv_rhs => rw [← List.map_id rows]
  refine List.map_congr_left fun r hr => ?_
  exact updatedBy_of_not_hasId r t? a? c? n now (by simpa using h r hr)

theorem updateTodo_of_fields (numToString : JsNum → JsStr) (idParam : JsStr) (body : JsVal)
    (now : Nat) (db : Store) {t? a? : Option JsStr} {c? : Option Bool}
    (hfin : (jsNumber idParam).isFinite = true)
    (ht : TextField numToString body (utf16 "title") t?)
    (ha : TextField numToString body (utf16 "author") a?) (hc : FlagField body c?)
    (hsome : ¬ (t? = none ∧ a? = none ∧ c? = none)) :
    updateTodo numToString idParam body now db
      = match (db.rows.filter (Row.hasId (jsNumber idParam))).head? with
        | none =>
          ⟨⟨404, .message "Todo not found"⟩, db,
           [⟨updateSql ((planOf t? a? c?).1.map Column.fragment),
             (planOf t? a? c?).2 ++ [.num (jsNumber idParam)]⟩]⟩
        | some r =>
          ⟨⟨200, .todo (coerceCompleted (r.updatedBy t? a? c? (jsNumber idParam) now).toTodo)⟩,
           { db with rows := db.rows.map (Row.updatedBy t? a? c? (jsNumber idParam) now) },
           [⟨updateSql ((planOf t? a? c?).1.map Column.fragment),
             (planOf t? a? c?).2 ++ [.num (jsNumber idParam)]⟩,
            ⟨selectByIdSql, [.num (jsNumber idParam)]⟩]⟩ := by
  have hshape : (planOf t? a? c?).1 ∈ updateShapes := by
    rcases planOf_shape t? a? c? with h | h
    · exact absurd h.2 hsome
    · exact h
  have hlen : ((planOf t? a? c?).1.map Column.fragment).length ≠ 0 := by
    rw [List.length_map]
    intro h0
    rw [List.length_eq_zero] at h0
    rw [h0] at hshape
    simp [updateShapes] at hshape
  simp only [updateTodo, hfin, Bool.not_true, collectUpdates_of_fields ht ha hc, hlen,
    if_false, execute_update _ hshape _ (wellBound_planOf t? a? c?), QueryResult.affectedRows?,
    Option.some.injEq, execute_selectById, QueryResult.first?, List.head?_map]
  have hfun : updateRow (planOf t? a? c?).1 (planOf t? a? c?).2 (jsNumber idParam) now
      = Row.updatedBy t? a? c? (jsNumber idParam) now := rfl
  rw [hfun, filter_hasId_map_updatedBy]
  cases hf : db.rows.filter (Row.hasId (jsNumber idParam)) with
  | nil =>
    have h0 : db.rows.countP (Row.hasId (jsNumber idParam)) = 0 := by
      rw [List.countP_eq_length_filter, hf]; rfl
    have hsame := map_updatedBy_of_no_match db.rows t? a? c? (jsNumber idParam) now hf
    simp [h0, hsame]
  | cons r rs =>
    have h0 : db.rows.countP (Row.hasId (jsNumber idParam)) ≠ 0 := by
      rw [List.countP_eq_length_filter, hf]; simp
    simp [h0]

theorem pushTitle_error {numToString : JsNum → JsStr} {body : JsVal} {acc : Updates}
    {r : Response} (h : pushTitle numToString body acc = .error r) :
    (∃ text, r = ⟨400, .message text⟩) ∨ r = serverError := by
  unfold pushTitle at h
  split at h
  · simp only [Except.error.injEq] at h; exact Or.inr h.symm
  · simp at h
  · split at h
    · simp only [Except.error.injEq] at h; exact Or.inr h.symm
    · split at h
      · simp only [Except.error.injEq] at h; exact Or.inl ⟨_, h.symm⟩
      · split at h
        · simp only [Except.error.injEq] at h; exact Or.inl ⟨_, h.symm⟩
        · simp at h

theorem pushAuthor_error {numToString : JsNum → JsStr} {body : JsVal} {acc : Updates}
    {r : Response} (h : pushAuthor numToString body acc = .error r) :
    (∃ text, r = ⟨400, .message text⟩) ∨ r = serverError := by
  unfold pushAuthor at h
  split at h
  · simp only [Except.error.injEq] at h; exact Or.inr h.symm
  · simp at h
  · split at h
    · simp only [Except.error.injEq] at h; exact Or.inr h.symm
    · split at h
      · simp only [Except.error.injEq] at h; exact Or.inl ⟨_, h.symm⟩
      · split at h
        · simp only [Except.error.injEq] at h; exact Or.inl ⟨_, h.symm⟩
        · simp at h

theorem pushCompleted_error {body : JsVal} {acc : Updates} {r : Response}
    (h : pushCompleted body acc = .error r) :
    (∃ text, r = ⟨400, .message text⟩) ∨ r = serverError := by
  unfold pushCompleted at h
  split at h
  · simp only [Except.error.injEq] at h; exact Or.inr h.symm
  · simp at h
  · simp at h

theorem collectUpdates_error {numToString : JsNum → JsStr} {body : JsVal}
    {r : Response} (h : collectUpdates numToString body = .error r) :
    (∃ text, r = ⟨400, .message text⟩) ∨ r = serverError := by
  unfold collectUpdates at h
  cases h1 : pushTitle numToString body ([], []) with
  | error r1 =>
    simp only [h1, Except.error.injEq] at h
    subst h
    exact pushTitle_error h1
  | ok acc1 =>
    cases h2 : pushAuthor numToString body acc1 with
    | error r2 =>
      simp only [h1, h2, Except.error.injEq] at h
      subst h
      exact pushAuthor_error h2
    | ok acc2 =>
      simp only [h1, h2] at h
      exact pushCompleted_error h

theorem collectUpdates_error_status {numToString : JsNum → JsStr} {body : JsVal}
    {r : Response} (h : collectUpdates numToString body = .error r) :
    r.status = 400 ∨ r.status = 500 := by
  rcases collectUpdates_error h with ⟨text, rfl⟩ | rfl
  · exact Or.inl rfl
  · exact Or.inr rfl

theorem updateTodo_accepted {numToString : JsNum → JsStr} {idParam : JsStr} {body : JsVal}
    {now : Nat} {db : Store}
    (h : (updateTodo numToString idParam body now db).response.status = 200) :
    (jsNumber idParam).isFinite = true ∧
    ∃ t? a? c?, TextField numToString body (utf16 "title") t? ∧
      TextField numToString body (utf16 "author") a? ∧ FlagField body c? ∧
      ¬ (t? = none ∧ a? = none ∧ c? = none) := by
  by_cases hfin : (jsNumber idParam).isFinite = true
  · refine ⟨hfin, ?_⟩
    cases hcol : collectUpdates numToString body with
    | error r =>
      have hr := collectUpdates_error_status hcol
      simp only [updateTodo, hfin, hcol, Bool.not_true, Bool.false_eq_true, if_false] at h
      rw [h] at hr
      omega
    | ok acc =>
      obtain ⟨t?, a?, c?, ht, ha, hc, rfl⟩ := collectUpdates_ok hcol
      refine ⟨t?, a?, c?, ht, ha, hc, ?_⟩
      rintro ⟨rfl, rfl, rfl⟩
      simp [updateTodo, hfin, hcol, planOf] at h
  · simp [updateTodo, hfin] at h

theorem textField_unsupplied {numToString : JsNum → JsStr} {body : JsVal} {k : JsStr}
    {x? : Option JsStr} (h : TextField numToString body k x?) (hu : Unsupplied body k) :
    x? = none := by
  cases x? with
  | none => rfl
  | some x =>
    obtain ⟨-, v, s, hg, hv, -, -⟩ := h
    rw [Unsupplied, hg] at hu
    exact absurd (Option.some.inj hu) hv

theorem flagField_unsupplied {body : JsVal} {c? : Option Bool} (h : FlagField body c?)
    (hu : Unsupplied body (utf16 "completed")) : c? = none := by
  cases c? with
  | none => rfl
  | some b =>
    obtain ⟨v, hg, hv, -⟩ := h
    rw [Unsupplied, hg] at hu
    exact absurd (Option.some.inj hu) hv

/-- C3: an accepted update (status 200) keeps the counter and the rows'
positions; every row keeps its id and its creation time, keeps its title, its
author and its completion flag when the body does not supply that field, and a
row the id does not select is left as it was. -/
theorem update_frame (numToString : JsNum → JsStr) (idParam : JsStr) (body : JsVal)
    (now : Nat) (db : Store)
    (h200 : (updateTodo numToString idParam body now db).response.status = 200) :
    (updateTodo numToString idParam body now db).store.autoInc = db.autoInc ∧
    List.Forall₂
      (fun old new : Row =>
        new.id = old.id ∧ new.created_at = old.created_at ∧
        (Unsupplied body (utf16 "title") → new.title = old.title) ∧
        (Unsupplied body (utf16 "author") → new.author = old.author) ∧
        (Unsupplied body (utf16 "completed") → new.completed = old.completed) ∧
        (old.hasId (jsNumber idParam) = false → new = old))
      db.rows (updateTodo numToString idParam body now db).store.rows := by
  obtain ⟨hfin, t?, a?, c?, ht, ha, hc, hsome⟩ := updateTodo_accepted h200
  rw [updateTodo_of_fields numToString idParam body now db hfin ht ha hc hsome] at h200 ⊢
  cases hf : (db.rows.filter (Row.hasId (jsNumber idParam))).head? with
  | none => simp [hf] at h200
  | some r0 =>
    simp only [hf]
    refine ⟨trivial, ?_⟩
    rw [List.forall₂_map_right_iff, List.forall₂_same]
    intro r _
    refine ⟨updatedBy_id .., updatedBy_created_at .., fun hu => ?_, fun hu => ?_,
      fun hu => ?_, fun hn => updatedBy_of_not_hasId r t? a? c? _ now hn⟩
    · rw [textField_unsupplied ht hu, updatedBy_eq]
      split
      · split <;> simp [Row.patched]
      · rfl
    · rw [textField_unsupplied ha hu, updatedBy_eq]
      split
      · split <;> simp [Row.patched]
      · rfl
    · rw [flagField_unsupplied hc hu, updatedBy_eq]
      split
      · split <;> simp [Row.patched]
      · rfl

/-- Witness of C3: `PATCH /api/todos/1 {completed: true}` on a store holding
todo 1. -/
theorem update_frame_witness :
    (updateTodo sampleNumToString (utf16 "1") (completedBody true) 9 oneTodoStore).store.autoInc
      = oneTodoStore.autoInc ∧
    List.Forall₂
      (fun old new : Row =>
        new.id = old.id ∧ new.created_at = old.created_at ∧
        (Unsupplied (completedBody true) (utf16 "title") → new.title = old.title) ∧
        (Unsupplied (completedBody true) (utf16 "author") → new.author = old.author) ∧
        (Unsupplied (completedBody true) (utf16 "completed") → new.completed = old.completed) ∧
        (old.hasId (jsNumber (utf16 "1")) = false → new = old))
      oneTodoStore.rows
      (updateTodo sampleNumToString (utf16 "1") (completedBody true) 9 oneTodoStore).store.rows :=
  update_frame sampleNumToString (utf16 "1") (completedBody true) 9 oneTodoStore (by decide)

/-! ## Identifiers -/

/-- C4 (amended): an id segment that `Number` does not convert to a finite
number (`NaN` or an infinity, as for `"abc"`) makes both the update and the
delete handler answer 400 `Invalid ID`, leave the store as it was and issue no
statement. -/
theorem invalid_id_rejected (numToString : JsNum → JsStr) (idParam : JsStr) (body : JsVal)
    (now : Nat) (db : Store) (hid : (jsNumber idParam).isFinite = false) :
    updateTodo numToString idParam body now db = ⟨⟨400, .message "Invalid ID"⟩, db, []⟩ ∧
    deleteTodo idParam now db = ⟨⟨400, .message "Invalid ID"⟩, db, []⟩ := by
  simp [updateTodo, deleteTodo, hid]

/-- Witness of C4 (amended): the segment `abc`. -/
theorem invalid_id_rejected_witness :
    updateTodo sampleNumToString (utf16 "abc") (completedBody true) 9 oneTodoStore
      = ⟨⟨400, .message "Invalid ID"⟩, oneTodoStore, []⟩ ∧
    deleteTodo (utf16 "abc") 9 oneTodoStore
      = ⟨⟨400, .message "Invalid ID"⟩, oneTodoStore, []⟩ :=
  invalid_id_rejected sampleNumToString (utf16 "abc") (completedBody true) 9 oneTodoStore
    (by decide)

/-- C4 as stated fails: the segments `1.5`, `1e3` and `0x10` are not
well-formed integers, yet each converts to a finite number and passes the id
check, so the statement is issued and the answer is 404 rather than 400; in
the same way `1e0` and `0x1` address todo 1. -/
theorem malformed_id_accepted :
    (updateTodo sampleNumToString (utf16 "1.5") (completedBody true) 9
      oneTodoStore).response.status = 404 ∧
    (updateTodo sampleNumToString (utf16 "1.5") (completedBody true) 9
      oneTodoStore).issued.length = 1 ∧
    (updateTodo sampleNumToString (utf16 "1e3") (completedBody true) 9
      oneTodoStore).response.status = 404 ∧
    (updateTodo sampleNumToString (utf16 "0x10") (completedBody true) 9
      oneTodoStore).response.status = 404 ∧
    (deleteTodo (utf16 "1.5") 9 oneTodoStore).response.status = 404 ∧
    (deleteTodo (utf16 "1.5") 9 oneTodoStore).issued.length = 1 ∧
    (deleteTodo (utf16 "1e3") 9 oneTodoStore).response.status = 404 ∧
    (deleteTodo (utf16 "0x10") 9 oneTodoStore).response.status = 404 ∧
    (updateTodo sampleNumToString (utf16 "1e0") (completedBody true) 9
      oneTodoStore).response.status = 200 ∧
    (deleteTodo (utf16 "0x1") 9 oneTodoStore).response.status = 204 ∧
    (deleteTodo (utf16 "0x1") 9 oneTodoStore).store.rows = [] := by
  decide

/-! ## Update and delete: rejected and unmatched requests -/

/-- C5: with an id that converts to a finite number, an update body that
supplies none of `title`, `author` and `completed` is answered 400
`Nothing to update`, whatever the store holds; nothing is issued. -/
theorem nothing_to_update (numToString : JsNum → JsStr) (idParam : JsStr) (body : JsVal)
    (now : Nat) (db : Store) (hid : (jsNumber idParam).isFinite = true)
    (ht : Unsupplied body (utf16 "title")) (ha : Unsupplied body (utf16 "author"))
    (hc : Unsupplied body (utf16 "completed")) :
    updateTodo numToString idParam body now db
      = ⟨⟨400, .message "Nothing to update"⟩, db, []⟩ := by
  have hcol := @collectUpdates_of_fields numToString body none none none ht ha hc
  simp [updateTodo, hid, hcol, planOf]

/-- Witness of C5: `PATCH /api/todos/1 {}`. -/
theorem nothing_to_update_witness :
    updateTodo sampleNumToString (utf16 "1") (.obj .nil) 9 oneTodoStore
      = ⟨⟨400, .message "Nothing to update"⟩, oneTodoStore, []⟩ :=
  nothing_to_update sampleNumToString (utf16 "1") (.obj .nil) 9 oneTodoStore (by decide)
    rfl rfl rfl

theorem deleteTodo_of_finite (idParam : JsStr) (now : Nat) (db : Store)
    (hid : (jsNumber idParam).isFinite = true) :
    deleteTodo idParam now db
      = if db.rows.countP (Row.hasId (jsNumber idParam)) = 0 then
          ⟨⟨404, .message "Todo not found"⟩,
           { db with rows := db.rows.filter fun r => !r.hasId (jsNumber idParam) },
           [⟨deleteSql, [.num (jsNumber idParam)]⟩]⟩
        else
          ⟨⟨204, .empty⟩,
           { db with rows := db.rows.filter fun r => !r.hasId (jsNumber idParam) },
           [⟨deleteSql, [.num (jsNumber idParam)]⟩]⟩ := by
  simp [deleteTodo, hid, execute_delete, QueryResult.affectedRows?]

theorem filter_not_hasId_of_no_match (rows : List Row) (n : JsNum)
    (h : ∀ r ∈ rows, r.hasId n = false) : (rows.filter fun r => !r.hasId n) = rows := by
  rw [List.filter_eq_self]
  intro r hr
  simp [h r hr]

/-- C6: when the id converts to a finite number that no stored todo has, an
update whose supplied fields are valid (at least one supplied) and a delete
are both answered 404 `Todo not found`, and the store is the same after the
request as before it. -/
theorem unmatched_id_not_found (numToString : JsNum → JsStr) (idParam : JsStr) (body : JsVal)
    (now : Nat) (db : Store) (t? a? : Option JsStr) (c? : Option Bool)
    (hid : (jsNumber idParam).isFinite = true)
    (hnone : ∀ r ∈ db.rows, r.hasId (jsNumber idParam) = false)
    (ht : TextField numToString body (utf16 "title") t?)
    (ha : TextField numToString body (utf16 "author") a?) (hc : FlagField body c?)
    (hsome : ¬ (t? = none ∧ a? = none ∧ c? = none)) :
    (updateTodo numToString idParam body now db).response
      = ⟨404, .message "Todo not found"⟩ ∧
    (updateTodo numToString idParam body now db).store = db ∧
    (deleteTodo idParam now db).response = ⟨404, .message "Todo not found"⟩ ∧
    (deleteTodo idParam now db).store = db := by
  have hf : db.rows.filter (Row.hasId (jsNumber idParam)) = [] := by
    rw [List.filter_eq_nil_iff]
    intro r hr
    simp [hnone r hr]
  have h0 : db.rows.countP (Row.hasId (jsNumber idParam)) = 0 := by
    rw [List.countP_eq_length_filter, hf]; rfl
  rw [updateTodo_of_fields numToString idParam body now db hid ht ha hc hsome,
    deleteTodo_of_finite idParam now db hid]
  simp [hf, h0, filter_not_hasId_of_no_match db.rows _ hnone]

/-- Witness of C6: todo 2 is absent from a store holding todo 1. -/
theorem unmatched_id_not_found_witness :
    (updateTodo sampleNumToString (utf16 "2") (completedBody true) 9 oneTodoStore).response
      = ⟨404, .message "Todo not found"⟩ ∧
    (updateTodo sampleNumToString (utf16 "2") (completedBody true) 9 oneTodoStore).store
      = oneTodoStore ∧
    (deleteTodo (utf16 "2") 9 oneTodoStore).response = ⟨404, .message "Todo not found"⟩ ∧
    (deleteTodo (utf16 "2") 9 oneTodoStore).store = oneTodoStore :=
  unmatched_id_not_found sampleNumToString (utf16 "2") (completedBody true) 9 oneTodoStore
    none none (some true) (by decide) (by decide) rfl rfl
    ⟨.bool true, rfl, by simp, rfl⟩ (by simp)

/-! ## The store after a request -/

theorem createTodo_store (numToString : JsNum → JsStr) (body : JsVal) (now : Nat) (db : Store) :
    (createTodo numToString body now db).store = db ∨
    ∃ t a, ValidText t ∧ ValidText a ∧
      (createTodo numToString body now db).store
        = { rows := db.rows ++ [newRow db t a now], autoInc := db.autoInc + 1 } := by
  cases ht : createField numToString body (utf16 "title") with
  | none =>
    left
    have h0 : ((body.optProp (utf16 "title")).orEmpty).toStr numToString = none := by
      simpa [createField] using ht
    simp [createTodo, h0]
  | some t =>
    cases ha : createField numToString body (utf16 "author") with
    | none =>
      left
      have h0 : ((body.optProp (utf16 "author")).orEmpty).toStr numToString = none := by
        simpa [createField] using ha
      simp [createTodo, h0]
    | some a =>
      by_cases hv : ValidText t ∧ ValidText a
      · obtain ⟨row, -, hcreate⟩ := createTodo_of_valid numToString body now db t a ht ha hv.1 hv.2
        exact Or.inr ⟨t, a, hv.1, hv.2, by rw [hcreate]⟩
      · obtain ⟨text, hcreate, -⟩ := createTodo_of_invalid numToString body now db t a ht ha hv
        exact Or.inl (by rw [hcreate])

theorem updateTodo_store (numToString : JsNum → JsStr) (idParam : JsStr) (body : JsVal)
    (now : Nat) (db : Store) :
    (updateTodo numToString idParam body now db).store = db ∨
    ∃ t? a? c?, TextField numToString body (utf16 "title") t? ∧
      TextField numToString body (utf16 "author") a? ∧
      (updateTodo numToString idParam body now db).store
        = { db with rows := db.rows.map (Row.updatedBy t? a? c? (jsNumber idParam) now) } := by
  by_cases hfin : (jsNumber idParam).isFinite = true
  · cases hcol : collectUpdates numToString body with
    | error r => exact Or.inl (by simp [updateTodo, hfin, hcol])
    | ok acc =>
      obtain ⟨t?, a?, c?, ht, ha, hc, rfl⟩ := collectUpdates_ok hcol
      by_cases hsome : t? = none ∧ a? = none ∧ c? = none
      · obtain ⟨rfl, rfl, rfl⟩ := hsome
        exact Or.inl (by simp [updateTodo, hfin, hcol, planOf])
      · rw [updateTodo_of_fields numToString idParam body now db hfin ht ha hc hsome]
        cases (db.rows.filter (Row.hasId (jsNumber idParam))).head? with
        | none => exact Or.inl rfl
        | some r => exact Or.inr ⟨t?, a?, c?, ht, ha, rfl⟩
  · exact Or.inl (by simp [updateTodo, hfin])

theorem deleteTodo_store (idParam : JsStr) (now : Nat) (db : Store) :
    (deleteTodo idParam now db).store = db ∨
    (deleteTodo idParam now db).store
      = { db with rows := db.rows.filter fun r => !r.hasId (jsNumber idParam) } := by
  by_cases hfin : (jsNumber idParam).isFinite = true
  · rw [deleteTodo_of_finite idParam now db hfin]
    split <;> exact Or.inr rfl
  · exact Or.inl (by simp [deleteTodo, hfin])

theorem updatedBy_title (t? a? : Option JsStr) (c? : Option Bool) (n : JsNum) (now : Nat)
    (r : Row) :
    (r.updatedBy t? a? c? n now).title = r.title ∨ t? = some (r.updatedBy t? a? c? n now).title := by
  rw [updatedBy_eq]
  cases t? <;> (split <;> [split; skip]) <;> simp [Row.patched]

theorem updatedBy_author (t? a? : Option JsStr) (c? : Option Bool) (n : JsNum) (now : Nat)
    (r : Row) :
    (r.updatedBy t? a? c? n now).author = r.author ∨
      a? = some (r.updatedBy t? a? c? n now).author := by
  rw [updatedBy_eq]
  cases a? <;> (split <;> [split; skip]) <;> simp [Row.patched]

theorem textField_valid {numToString : JsNum → JsStr} {body : JsVal} {k x : JsStr}
    (h : TextField numToString body k (some x)) : ValidText x := h.1

theorem handle_textsValid (numToString : JsNum → JsStr) (req : Request) (now : Nat)
    (db : Store) (h : db.TextsValid) : (handle numToString req now db).store.TextsValid := by
  cases req with
  | list => simpa [handle, listTodos_eq] using h
  | create body =>
    rcases createTodo_store numToString body now db with hs | ⟨t, a, hvt, hva, hs⟩
    · simpa [handle, hs] using h
    · simp only [handle, hs]
      intro r hr
      rcases List.mem_append.mp hr with hr | hr
      · exact h r hr
      · rw [List.mem_singleton] at hr
        subst hr
        exact ⟨hvt, hva⟩
  | update idParam body =>
    rcases updateTodo_store numToString idParam body now db with hs | ⟨t?, a?, c?, ht, ha, hs⟩
    · simpa [handle, hs] using h
    · simp only [handle, hs]
      intro r hr
      obtain ⟨r0, hr0, rfl⟩ := List.mem_map.mp hr
      constructor
      · rcases updatedBy_title t? a? c? (jsNumber idParam) now r0 with he | he
        · rw [he]; exact (h r0 hr0).1
        · rw [he] at ht; exact textField_valid ht
      · rcases updatedBy_author t? a? c? (jsNumber idParam) now r0 with he | he
        · rw [he]; exact (h r0 hr0).2
        · rw [he] at ha; exact textField_valid ha
  | delete idParam =>
    rcases deleteTodo_store idParam now db with hs | hs
    · simpa [handle, hs] using h
    · simp only [handle, hs]
      intro r hr
      exact h r (List.mem_filter.mp hr).1

/-- C10: from a store whose persisted titles and authors are all non-empty and
at most 255 code units long, every sequence of list, create, update and delete
requests, with arbitrary bodies, id segments and arrival times, leads to a
store with the same property. -/
theorem persisted_texts_valid (numToString : JsNum → JsStr) (db : Store)
    (reqs : List (Nat × Request)) (h : db.TextsValid) :
    (run numToString db reqs).TextsValid := by
  induction reqs generalizing db with
  | nil => exact h
  | cons head rest ih =>
    obtain ⟨now, req⟩ := head
    exact ih _ (handle_textsValid numToString req now db h)

/-- Witness of C10: a store holding one valid todo, and a sequence of
requests on it. -/
theorem persisted_texts_valid_witness :
    (run sampleNumToString oneTodoStore sampleRequests).TextsValid :=
  persisted_texts_valid sampleNumToString oneTodoStore sampleRequests
    (by unfold Store.TextsValid ValidText; decide)

/-! ## Delete -/

theorem hasId_iff {n : JsNum} {i : Int} (hn : n.eqInt i = true) (r : Row) :
    r.hasId n = true ↔ r.id = i := by
  constructor
  · intro h
    exact eqInt_unique h hn
  · intro h
    rw [Row.hasId, h]
    exact hn

theorem handle_retired (numToString : JsNum → JsStr) (req : Request) (now : Nat)
    (db : Store) (i : Int) (h : db.Retired i) :
    (handle numToString req now db).store.Retired i := by
  cases req with
  | list => simpa [handle, listTodos_eq] using h
  | create body =>
    rcases createTodo_store numToString body now db with hs | ⟨t, a, -, -, hs⟩
    · simpa [handle, hs] using h
    · simp only [handle, hs]
      refine ⟨fun r hr => ?_, ?_⟩
      · rcases List.mem_append.mp hr with hr | hr
        · exact h.1 r hr
        · rw [List.mem_singleton] at hr
          subst hr
          have := h.2
          simp only [newRow]
          omega
      · have := h.2
        show i < db.autoInc + 1
        omega
  | update idParam body =>
    rcases updateTodo_store numToString idParam body now db with hs | ⟨t?, a?, c?, -, -, hs⟩
    · simpa [handle, hs] using h
    · simp only [handle, hs]
      refine ⟨fun r hr => ?_, h.2⟩
      obtain ⟨r0, hr0, rfl⟩ := List.mem_map.mp hr
      rw [updatedBy_id]
      exact h.1 r0 hr0
  | delete idParam =>
    rcases deleteTodo_store idParam now db with hs | hs
    · simpa [handle, hs] using h
    · simp only [handle, hs]
      exact ⟨fun r hr => h.1 r (List.mem_filter.mp hr).1, h.2⟩

theorem run_retired (numToString : JsNum → JsStr) (db : Store) (reqs : List (Nat × Request))
    (i : Int) (h : db.Retired i) : (run numToString db reqs).Retired i := by
  induction reqs generalizing db with
  | nil => exact h
  | cons head rest ih =>
    obtain ⟨now, req⟩ := head
    exact ih _ (handle_retired numToString req now db i h)

theorem filter_ne_of_nodup (rows : List Row) (hnd : (rows.map Row.id).Nodup) (target : Row)
    (hmem : target ∈ rows) :
    rows.Perm (target :: rows.filter fun r => decide (r.id ≠ target.id)) := by
  induction rows with
  | nil => simp at hmem
  | cons r rs ih =>
    rw [List.map_cons, List.nodup_cons] at hnd
    rcases List.mem_cons.mp hmem with rfl | hin
    · have hrest : (rs.filter fun r => decide (r.id ≠ target.id)) = rs := by
        rw [List.filter_eq_self]
        intro x hx
        have : x.id ≠ target.id := fun he => hnd.1 (he ▸ List.mem_map_of_mem Row.id hx)
        simpa using this
      have hself : decide (target.id ≠ target.id) = false := by simp
      rw [List.filter_cons, hself, hrest]
      exact List.Perm.refl _
    · have hne : r.id ≠ target.id :=
        fun he => hnd.1 (he ▸ List.mem_map_of_mem Row.id hin)
      simp only [List.filter_cons, hne, ne_eq, not_false_eq_true, decide_True, if_true]
      exact ((ih hnd.2 hin).cons r).trans (List.Perm.swap _ _ _)

/-- C7: on a well-formed store that holds a todo with id `i`, a delete whose id
segment denotes `i` is answered 204 with an empty body; the table afterwards is
the table before without that one row, the others unchanged and in place;
after any further sequence of requests the list is answered with todos none of
which has id `i`; and a repeated delete is answered 404 `Todo not found`. -/
theorem delete_existing (numToString : JsNum → JsStr) (idParam : JsStr) (now : Nat)
    (db : Store) (i : Int) (target : Row) (hwf : db.WellFormed)
    (hid : (jsNumber idParam).eqInt i = true) (hmem : target ∈ db.rows)
    (hti : target.id = i) :
    (deleteTodo idParam now db).response.status = 204 ∧
    (deleteTodo idParam now db).response.body = .empty ∧
    (deleteTodo idParam now db).store.rows = db.rows.filter (fun r => decide (r.id ≠ i)) ∧
    db.rows.Perm (target :: (deleteTodo idParam now db).store.rows) ∧
    (∀ (reqs : List (Nat × Request)) (later : Nat),
      ∃ ts, (listTodos later
          (run numToString (deleteTodo idParam now db).store reqs)).response.body = .todos ts ∧
        ∀ x ∈ ts, x.id ≠ i) ∧
    (∀ later : Nat, (deleteTodo idParam later (deleteTodo idParam now db).store).response
      = ⟨404, .message "Todo not found"⟩) := by
  have hfin := isFinite_of_eqInt hid
  have hcount : db.rows.countP (Row.hasId (jsNumber idParam)) ≠ 0 := by
    rw [Ne, List.countP_eq_zero]
    intro h
    exact h target hmem ((hasId_iff hid target).mpr hti)
  have hfilter : (db.rows.filter fun r => !r.hasId (jsNumber idParam))
      = db.rows.filter (fun r => decide (r.id ≠ i)) := by
    refine List.filter_congr fun r _ => ?_
    by_cases h : r.id = i
    · simp [h, (hasId_iff hid r).mpr h]
    · have : r.hasId (jsNumber idParam) = false := by
        rw [← Bool.not_eq_true, hasId_iff hid r]; exact h
      simp [h, this]
  have hstore : (deleteTodo idParam now db).store
      = { db with rows := db.rows.filter (fun r => decide (r.id ≠ i)) } := by
    rw [deleteTodo_of_finite idParam now db hfin, if_neg hcount, hfilter]
  have hret : (deleteTodo idParam now db).store.Retired i := by
    rw [hstore]
    refine ⟨fun r hr => ?_, ?_⟩
    · simpa using (List.mem_filter.mp hr).2
    · exact hti ▸ hwf.2 target hmem
  refine ⟨?_, ?_, ?_, ?_, ?_, ?_⟩
  · rw [deleteTodo_of_finite idParam now db hfin, if_neg hcount]
  · rw [deleteTodo_of_finite idParam now db hfin, if_neg hcount]
  · rw [hstore]
  · rw [hstore]
    subst hti
    exact filter_ne_of_nodup db.rows hwf.1 target hmem
  · intro reqs later
    have hr := run_retired numToString _ reqs i hret
    rw [listTodos_eq]
    refine ⟨_, rfl, fun x hx => ?_⟩
    simp only [List.mem_map] at hx
    obtain ⟨y, ⟨r, hr0, rfl⟩, rfl⟩ := hx
    simp only [coerceCompleted_toTodo]
    exact hr.1 r (mem_newestFirst.mp hr0)
  · intro later
    have h0 : (deleteTodo idParam now db).store.rows.countP (Row.hasId (jsNumber idParam))
        = 0 := by
      rw [List.countP_eq_zero]
      intro r hr h
      exact hret.1 r hr ((hasId_iff hid r).mp h)
    rw [deleteTodo_of_finite idParam later _ hfin, if_pos h0]

/-- Witness of C7: `DELETE /api/todos/1` on a store holding todo 1. -/
theorem delete_existing_witness :
    (deleteTodo (utf16 "1") 9 oneTodoStore).response.status = 204 ∧
    (deleteTodo (utf16 "1") 9 oneTodoStore).response.body = .empty ∧
    (deleteTodo (utf16 "1") 9 oneTodoStore).store.rows
      = oneTodoStore.rows.filter (fun r => decide (r.id ≠ 1)) ∧
    oneTodoStore.rows.Perm
      ((⟨1, utf16 "Buy milk", utf16 "alice", 0, 5, 5⟩ : Row)
        :: (deleteTodo (utf16 "1") 9 oneTodoStore).store.rows) ∧
    (∀ (reqs : List (Nat × Request)) (later : Nat),
      ∃ ts, (listTodos later (run sampleNumToString
          (deleteTodo (utf16 "1") 9 oneTodoStore).store reqs)).response.body = .todos ts ∧
        ∀ x ∈ ts, x.id ≠ 1) ∧
    (∀ later : Nat,
      (deleteTodo (utf16 "1") later (deleteTodo (utf16 "1") 9 oneTodoStore).store).response
        = ⟨404, .message "Todo not found"⟩) :=
  delete_existing sampleNumToString (utf16 "1") 9 oneTodoStore 1
    ⟨1, utf16 "Buy milk", utf16 "alice", 0, 5, 5⟩ (by unfold Store.WellFormed; decide)
    (by decide) (by decide) rfl

/-! ## The `completed` flag on the read paths -/

theorem updatedBy_completed (t? a? : Option JsStr) (b : Bool) (n : JsNum) (now : Nat)
    (r : Row) (h : r.hasId n = true) :
    (r.updatedBy t? a? (some b) n now).completed = if b then 1 else 0 := by
  rw [updatedBy_eq, if_pos h]
  by_cases hp : r.patched t? a? (some b) = r
  · rw [if_pos hp]
    conv_lhs => rw [← hp]
    simp [Row.patched]
  · rw [if_neg hp]
    simp [Row.patched]

theorem createTodo_response (numToString : JsNum → JsStr) (body : JsVal) (now : Nat)
    (db : Store) :
    (∃ status text, (createTodo numToString body now db).response = ⟨status, .message text⟩) ∨
    ∃ row, (createTodo numToString body now db).response
      = ⟨201, .todo (coerceCompleted (Row.toTodo row))⟩ := by
  cases ht : createField numToString body (utf16 "title") with
  | none =>
    have h0 : ((body.optProp (utf16 "title")).orEmpty).toStr numToString = none := by
      simpa [createField] using ht
    exact Or.inl ⟨500, "Unexpected server error", by simp [createTodo, h0, serverError]⟩
  | some t =>
    cases ha : createField numToString body (utf16 "author") with
    | none =>
      have h0 : ((body.optProp (utf16 "author")).orEmpty).toStr numToString = none := by
        simpa [createField] using ha
      exact Or.inl ⟨500, "Unexpected server error", by simp [createTodo, h0, serverError]⟩
    | some a =>
      by_cases hv : ValidText t ∧ ValidText a
      · obtain ⟨row, -, hcreate⟩ := createTodo_of_valid numToString body now db t a ht ha hv.1 hv.2
        exact Or.inr ⟨row, by rw [hcreate]⟩
      · obtain ⟨text, hcreate, -⟩ := createTodo_of_invalid numToString body now db t a ht ha hv
        exact Or.inl ⟨400, text, by rw [hcreate]⟩

theorem updateTodo_response (numToString : JsNum → JsStr) (idParam : JsStr) (body : JsVal)
    (now : Nat) (db : Store) :
    (∃ status text,
      (updateTodo numToString idParam body now db).response = ⟨status, .message text⟩) ∨
    ∃ row, (updateTodo numToString idParam body now db).response
      = ⟨200, .todo (coerceCompleted (Row.toTodo row))⟩ := by
  by_cases hfin : (jsNumber idParam).isFinite = true
  · cases hcol : collectUpdates numToString body with
    | error r =>
      rcases collectUpdates_error hcol with ⟨text, rfl⟩ | rfl
      · exact Or.inl ⟨400, text, by simp [updateTodo, hfin, hcol]⟩
      · exact Or.inl ⟨500, "Unexpected server error",
          by simp [updateTodo, hfin, hcol, serverError]⟩
    | ok acc =>
      obtain ⟨t?, a?, c?, ht, ha, hc, rfl⟩ := collectUpdates_ok hcol
      by_cases hsome : t? = none ∧ a? = none ∧ c? = none
      · obtain ⟨rfl, rfl, rfl⟩ := hsome
        exact Or.inl ⟨400, "Nothing to update", by simp [updateTodo, hfin, hcol, planOf]⟩
      · rw [updateTodo_of_fields numToString idParam body now db hfin ht ha hc hsome]
        cases (db.rows.filter (Row.hasId (jsNumber idParam))).head? with
        | none => exact Or.inl ⟨404, "Todo not found", rfl⟩
        | some r => exact Or.inr ⟨_, rfl⟩
  · exact Or.inl ⟨400, "Invalid ID", by simp [updateTodo, hfin]⟩

theorem handle_todos_strict (numToString : JsNum → JsStr) (req : Request) (now : Nat)
    (db : Store) :
    ∀ x ∈ (handle numToString req now db).response.todos, ∃ c, x.completed = .bool c := by
  cases req with
  | list =>
    simp only [handle, listTodos_eq, Response.todos]
    intro x hx
    obtain ⟨y, -, rfl⟩ := List.mem_map.mp hx
    exact ⟨_, rfl⟩
  | create body =>
    rcases createTodo_response numToString body now db with ⟨st, text, h⟩ | ⟨row, h⟩
    · simp [handle, h, Response.todos]
    · simp [handle, h, Response.todos, coerceCompleted]
  | update idParam body =>
    rcases updateTodo_response numToString idParam body now db with ⟨st, text, h⟩ | ⟨row, h⟩
    · simp [handle, h, Response.todos]
    · simp [handle, h, Response.todos, coerceCompleted]
  | delete idParam =>
    by_cases hfin : (jsNumber idParam).isFinite = true
    · simp only [handle, deleteTodo_of_finite idParam now db hfin]
      split <;> simp [Response.todos]
    · simp [handle, deleteTodo, hfin, Response.todos]

/-- C8: when a stored todo has the id the segment denotes and the body carries
`completed: b` for a boolean `b` (its other supplied fields valid), the update
is answered 200 with a todo of that id whose `completed` is the boolean `b`,
and the next list holds that id and shows `completed` as the boolean `b` for
it; moreover every todo in the response to any request, on any store, carries
a boolean `completed`, the store's `0` or `1` being coerced. -/
theorem completed_round_trip (numToString : JsNum → JsStr) (idParam : JsStr) (body : JsVal)
    (now later : Nat) (db : Store) (b : Bool) (t? a? : Option JsStr) (target : Row)
    (hid : (jsNumber idParam).isFinite = true) (hmem : target ∈ db.rows)
    (htarget : target.hasId (jsNumber idParam) = true)
    (ht : TextField numToString body (utf16 "title") t?)
    (ha : TextField numToString body (utf16 "author") a?)
    (hc : body.getProp (utf16 "completed") = some (.bool b)) :
    (∃ todo ts,
      (updateTodo numToString idParam body now db).response = ⟨200, .todo todo⟩ ∧
      todo.completed = .bool b ∧ (jsNumber idParam).eqInt todo.id = true ∧
      (listTodos later (updateTodo numToString idParam body now db).store).response.body
        = .todos ts ∧
      (∃ x ∈ ts, (jsNumber idParam).eqInt x.id = true) ∧
      ∀ x ∈ ts, (jsNumber idParam).eqInt x.id = true → x.completed = .bool b) ∧
    (∀ (req : Request) (at_ : Nat) (any : Store),
      ∀ x ∈ (handle numToString req at_ any).response.todos, ∃ c, x.completed = .bool c) := by
  refine ⟨?_, fun req at_ any => handle_todos_strict numToString req at_ any⟩
  have hflag : FlagField body (some b) := ⟨.bool b, hc, by simp, rfl⟩
  have hbool : ∀ r : Row, r.hasId (jsNumber idParam) = true →
      (coerceCompleted (Row.toTodo (Row.updatedBy t? a? (some b) (jsNumber idParam) now r))).completed
        = .bool b := by
    intro r hr
    rw [coerceCompleted_toTodo, updatedBy_completed t? a? b _ now r hr]
    cases b <;> simp
  rw [updateTodo_of_fields numToString idParam body now db hid ht ha hflag (by simp)]
  have hne : db.rows.filter (Row.hasId (jsNumber idParam)) ≠ [] := by
    intro h
    have := List.mem_filter.mpr ⟨hmem, htarget⟩
    rw [h] at this
    simp at this
  cases hf : db.rows.filter (Row.hasId (jsNumber idParam)) with
  | nil => exact absurd hf hne
  | cons r0 rest =>
    have hr0 : r0.hasId (jsNumber idParam) = true :=
      (List.mem_filter.mp (hf ▸ List.mem_cons_self r0 rest)).2
    simp only [List.head?_cons, listTodos_eq]
    refine ⟨_, _, rfl, hbool r0 hr0, ?_, rfl, ?_, ?_⟩
    · simpa [coerceCompleted_toTodo, updatedBy_id, Row.hasId] using hr0
    · refine ⟨coerceCompleted (Row.toTodo
        (Row.updatedBy t? a? (some b) (jsNumber idParam) now target)), ?_, ?_⟩
      · refine List.mem_map_of_mem _ (List.mem_map_of_mem _ ?_)
        exact mem_newestFirst.mpr (List.mem_map_of_mem _ hmem)
      · simpa [coerceCompleted_toTodo, updatedBy_id, Row.hasId] using htarget
    · intro x hx hxid
      obtain ⟨y, hy, rfl⟩ := List.mem_map.mp hx
      obtain ⟨r, hr, rfl⟩ := List.mem_map.mp hy
      obtain ⟨r1, -, rfl⟩ := List.mem_map.mp (mem_newestFirst.mp hr)
      refine hbool r1 ?_
      simpa [coerceCompleted_toTodo, updatedBy_id, Row.hasId] using hxid

/-- Witness of C8: `PATCH /api/todos/1 {completed: true}` on a store holding
todo 1. -/
theorem completed_round_trip_witness :
    (∃ todo ts,
      (updateTodo sampleNumToString (utf16 "1") (completedBody true) 9 oneTodoStore).response
        = ⟨200, .todo todo⟩ ∧
      todo.completed = .bool true ∧ (jsNumber (utf16 "1")).eqInt todo.id = true ∧
      (listTodos 10 (updateTodo sampleNumToString (utf16 "1") (completedBody true) 9
        oneTodoStore).store).response.body = .todos ts ∧
      (∃ x ∈ ts, (jsNumber (utf16 "1")).eqInt x.id = true) ∧
      ∀ x ∈ ts, (jsNumber (utf16 "1")).eqInt x.id = true → x.completed = .bool true) ∧
    (∀ (req : Request) (at_ : Nat) (any : Store),
      ∀ x ∈ (handle sampleNumToString req at_ any).response.todos,
        ∃ c, x.completed = .bool c) :=
  completed_round_trip sampleNumToString (utf16 "1") (completedBody true) 9 10 oneTodoStore
    true none none ⟨1, utf16 "Buy milk", utf16 "alice", 0, 5, 5⟩ (by decide) (by decide)
    (by decide) rfl rfl rfl

/-! ## Rejections come before persistence -/

theorem createTodo_rejected {numToString : JsNum → JsStr} {body : JsVal} {now : Nat}
    {db : Store} (h : (createTodo numToString body now db).response.status = 400) :
    (createTodo numToString body now db).store = db ∧
    (createTodo numToString body now db).issued = [] := by
  cases ht : createField numToString body (utf16 "title") with
  | none =>
    have h0 : ((body.optProp (utf16 "title")).orEmpty).toStr numToString = none := by
      simpa [createField] using ht
    simp [createTodo, h0]
  | some t =>
    cases ha : createField numToString body (utf16 "author") with
    | none =>
      have h0 : ((body.optProp (utf16 "author")).orEmpty).toStr numToString = none := by
        simpa [createField] using ha
      simp [createTodo, h0]
    | some a =>
      by_cases hv : ValidText t ∧ ValidText a
      · obtain ⟨row, -, hcreate⟩ := createTodo_of_valid numToString body now db t a ht ha hv.1 hv.2
        rw [hcreate] at h
        simp at h
      · obtain ⟨text, hcreate, -⟩ := createTodo_of_invalid numToString body now db t a ht ha hv
        rw [hcreate]
        exact ⟨rfl, rfl⟩

theorem updateTodo_rejected {numToString : JsNum → JsStr} {idParam : JsStr} {body : JsVal}
    {now : Nat} {db : Store}
    (h : (updateTodo numToString idParam body now db).response.status = 400) :
    (updateTodo numToString idParam body now db).store = db ∧
    (updateTodo numToString idParam body now db).issued = [] := by
  by_cases hfin : (jsNumber idParam).isFinite = true
  · cases hcol : collectUpdates numToString body with
    | error r => simp [updateTodo, hfin, hcol]
    | ok acc =>
      obtain ⟨t?, a?, c?, ht, ha, hc, rfl⟩ := collectUpdates_ok hcol
      by_cases hsome : t? = none ∧ a? = none ∧ c? = none
      · obtain ⟨rfl, rfl, rfl⟩ := hsome
        simp [updateTodo, hfin, hcol, planOf]
      · rw [updateTodo_of_fields numToString idParam body now db hfin ht ha hc hsome] at h
        cases hf : (db.rows.filter (Row.hasId (jsNumber idParam))).head? with
        | none => simp [hf] at h
        | some r => simp [hf] at h
  · simp [updateTodo, hfin]

theorem deleteTodo_rejected {idParam : JsStr} {now : Nat} {db : Store}
    (h : (deleteTodo idParam now db).response.status = 400) :
    (deleteTodo idParam now db).store = db ∧ (deleteTodo idParam now db).issued = [] := by
  by_cases hfin : (jsNumber idParam).isFinite = true
  · rw [deleteTodo_of_finite idParam now db hfin] at h
    split at h <;> simp at h
  · simp [deleteTodo, hfin]

theorem updateTodo_invalid_author (numToString : JsNum → JsStr) (idParam : JsStr)
    (body : JsVal) (now : Nat) (db : Store) (t? : Option JsStr) (v : JsVal) (s : JsStr)
    (hid : (jsNumber idParam).isFinite = true)
    (ht : TextField numToString body (utf16 "title") t?)
    (hg : body.getProp (utf16 "author") = some v) (hv : v ≠ .undefined)
    (hs : v.toStr numToString = some s) (hbad : ¬ ValidText (jsTrim s)) :
    ∃ text, updateTodo numToString idParam body now db = ⟨⟨400, .message text⟩, db, []⟩ := by
  have hauthor : ∀ acc, ∃ text,
      pushAuthor numToString body acc = .error ⟨400, .message text⟩ := by
    intro acc
    by_cases h1 : jsTrim s = []
    · exact ⟨"Author cannot be empty", by cases v <;> simp_all [pushAuthor]⟩
    · have h2 : (jsTrim s).length > 255 := by
        by_contra h2
        exact hbad ⟨h1, by omega⟩
      exact ⟨"Author must be 255 characters or fewer", by cases v <;> simp_all [pushAuthor]⟩
  obtain ⟨text, htext⟩ := hauthor
    (([] : List String) ++ (t?.map fun _ => Column.title.fragment).toList,
     ([] : List SqlParam) ++ (t?.map SqlParam.str).toList)
  refine ⟨text, ?_⟩
  simp only [updateTodo, hid, Bool.not_true, Bool.false_eq_true, if_false, collectUpdates,
    pushTitle_of_field ht, htext]

/-- C9: a request answered 400 leaves the store as it was and issues no
statement, whichever of the handlers answers; in particular an update whose
title is valid (or not supplied) and whose author is supplied but empty or
longer than 255 code units after trimming is answered 400 with the store
untouched and nothing issued, so its title is not applied. -/
theorem rejected_before_persistence (numToString : JsNum → JsStr) (req : Request) (now : Nat)
    (db : Store) (h : (handle numToString req now db).response.status = 400) :
    ((handle numToString req now db).store = db ∧
      (handle numToString req now db).issued = []) ∧
    (∀ (idParam : JsStr) (body : JsVal) (at_ : Nat) (any : Store) (t? : Option JsStr)
        (v : JsVal) (s : JsStr),
      (jsNumber idParam).isFinite = true →
      TextField numToString body (utf16 "title") t? →
      body.getProp (utf16 "author") = some v → v ≠ .undefined →
      v.toStr numToString = some s → ¬ ValidText (jsTrim s) →
      ∃ text, updateTodo numToString idParam body at_ any
        = ⟨⟨400, .message text⟩, any, []⟩) := by
  refine ⟨?_, fun idParam body at_ any t? v s hid ht hg hv hs hbad =>
    updateTodo_invalid_author numToString idParam body at_ any t? v s hid ht hg hv hs hbad⟩
  cases req with
  | list => simp [handle, listTodos_eq] at h
  | create body => exact createTodo_rejected h
  | update idParam body => exact updateTodo_rejected h
  | delete idParam => exact @deleteTodo_rejected idParam now db h

/-- Witness of C9: `PATCH /api/todos/1 {title: "Buy bread", author: "   "}` is
answered 400. -/
theorem rejected_before_persistence_witness :
    ((handle sampleNumToString (.update (utf16 "1") blankAuthorBody) 9 oneTodoStore).store
        = oneTodoStore ∧
      (handle sampleNumToString (.update (utf16 "1") blankAuthorBody) 9 oneTodoStore).issued
        = []) ∧
    (∀ (idParam : JsStr) (body : JsVal) (at_ : Nat) (any : Store) (t? : Option JsStr)
        (v : JsVal) (s : JsStr),
      (jsNumber idParam).isFinite = true →
      TextField sampleNumToString body (utf16 "title") t? →
      body.getProp (utf16 "author") = some v → v ≠ .undefined →
      v.toStr sampleNumToString = some s → ¬ ValidText (jsTrim s) →
      ∃ text, updateTodo sampleNumToString idParam body at_ any
        = ⟨⟨400, .message text⟩, any, []⟩) :=
  rejected_before_persistence sampleNumToString (.update (utf16 "1") blankAuthorBody) 9
    oneTodoStore (by decide)

/-! ## The generated database name -/

theorem isNameUnit_sanitized (c : CodeUnit) :
    isNameUnit (if isNameUnit c then c else (0x5F : CodeUnit)) = true := by
  by_cases h : isNameUnit c = true
  · simp [h]
  · have hf : isNameUnit c = false := by simpa using h
    simp only [hf, Bool.false_eq_true, if_false]
    decide

theorem sanitizeName_all (s : JsStr) : (sanitizeName s).all isNameUnit = true := by
  simp only [sanitizeName, List.all_map, List.all_eq_true]
  intro c _
  exact isNameUnit_sanitized c

theorem sanitizeName_append (s t : JsStr) :
    sanitizeName (s ++ t) = sanitizeName s ++ sanitizeName t := by
  simp [sanitizeName]

theorem escapeBackticks_of_name (s : JsStr) (h : s.all isNameUnit = true) :
    escapeBackticks s = s := by
  induction s with
  | nil => rfl
  | cons c cs ih =>
    simp only [List.all_cons, Bool.and_eq_true] at h
    have hc : c.val ≠ 0x60 := by
      intro hc
      have h1 := h.1
      simp [isNameUnit, hc] at h1
    have ih1 := ih h.2
    simp only [escapeBackticks] at ih1 ⊢
    simp [List.flatMap_cons, hc, ih1]

/-- C14: whatever the run id and the run attempt are (set to any string, empty
or unset) and whatever the clock reads, `buildDbName` returns a name: it never
takes its error branch; the name starts with `ci_`, consists of code units in
`[a-zA-Z0-9_]` only, holds no backtick, and the backtick escaping of `main`
leaves it as it is. -/
theorem buildDbName_safe (runIdEnv attemptEnv : Option JsStr) (dateNow : Nat) :
    ∃ name, buildDbName runIdEnv attemptEnv dateNow = .ok name ∧
      utf16 "ci_" <+: name ∧ name.all isNameUnit = true ∧
      (∀ c ∈ name, c.val ≠ 0x60) ∧ escapeBackticks name = name := by
  have hall := sanitizeName_all
    (utf16 "ci_" ++ envOr runIdEnv (decimalText dateNow) ++ utf16 "_"
      ++ envOr attemptEnv (utf16 "1"))
  have hpre : utf16 "ci_" <+: sanitizeName
      (utf16 "ci_" ++ envOr runIdEnv (decimalText dateNow) ++ utf16 "_"
        ++ envOr attemptEnv (utf16 "1")) := by
    rw [List.append_assoc, List.append_assoc, sanitizeName_append]
    have : sanitizeName (utf16 "ci_") = utf16 "ci_" := by decide
    rw [this]
    exact List.prefix_append _ _
  have hne : sanitizeName
      (utf16 "ci_" ++ envOr runIdEnv (decimalText dateNow) ++ utf16 "_"
        ++ envOr attemptEnv (utf16 "1")) ≠ [] := by
    intro h
    rw [h] at hpre
    have := List.prefix_nil.mp hpre
    exact absurd this (by decide)
  refine ⟨_, ?_, hpre, hall, ?_, escapeBackticks_of_name _ hall⟩
  · simp only [buildDbName, hall, hne, ne_eq, not_false_eq_true, and_self, decide_True,
      Bool.not_true, Bool.false_eq_true, if_false]
  · intro c hc h60
    have h1 := List.all_eq_true.mp hall c hc
    simp [isNameUnit, h60] at h1

/-! ## The client's create request -/

theorem dropWhile_eq_self_of_head {p : CodeUnit → Bool} {c : CodeUnit} {cs : JsStr}
    (h : p c = false) : (c :: cs).dropWhile p = c :: cs := by
  simp [List.dropWhile_cons, h]

theorem dropWhile_head_not (p : CodeUnit → Bool) (s : JsStr) :
    s.dropWhile p = [] ∨ ∃ c cs, s.dropWhile p = c :: cs ∧ p c = false := by
  induction s with
  | nil => exact Or.inl rfl
  | cons a as ih =>
    by_cases h : p a = true
    · simpa [List.dropWhile_cons, h] using ih
    · exact Or.inr ⟨a, as, by simp [List.dropWhile_cons, h], by simpa using h⟩

theorem jsTrim_idem (s : JsStr) : jsTrim (jsTrim s) = jsTrim s := by
  unfold jsTrim
  rcases dropWhile_head_not isJsWhiteSpace
      ((s.dropWhile isJsWhiteSpace).reverse) with h | ⟨c, cs, h, hc⟩
  · simp [h]
  · rw [h]
    rcases dropWhile_head_not isJsWhiteSpace s with h2 | ⟨d, ds, h2, hd⟩
    · rw [h2] at h
      simp at h
    · have hsuf : (c :: cs) <:+ (d :: ds).reverse := by
        rw [← h, ← h2]
        exact List.dropWhile_suffix _
      have hpre : (c :: cs).reverse <+: d :: ds := by
        have := List.reverse_prefix.mpr hsuf
        simpa using this
      obtain ⟨rest, hrest⟩ := hpre
      have hhead : ∃ tl, (c :: cs).reverse = d :: tl := by
        cases hr : (c :: cs).reverse with
        | nil => simp at hr
        | cons x xs =>
          rw [hr] at hrest
          simp only [List.cons_append, List.cons.injEq] at hrest
          exact ⟨xs, by rw [hrest.1]⟩
      obtain ⟨tl, htl⟩ := hhead
      rw [htl, dropWhile_eq_self_of_head hd, ← htl, List.reverse_reverse,
        dropWhile_eq_self_of_head hc]

/-- C12 as stated fails on the code: for every title that is non-empty after
trimming, `onCreate` issues `POST /api/todos` with a body that carries the
trimmed title and no `author`, and the create handler answers it 400
`Author is required` without touching the store. -/
theorem client_create_rejected (numToString : JsNum → JsStr) (title : JsStr) (now : Nat)
    (db : Store) (h : jsTrim title ≠ []) :
    ∃ req, onCreate title = some req ∧ req.method = "POST" ∧ req.path = "/api/todos" ∧
      req.body.optProp (utf16 "title") = .str (jsTrim title) ∧
      req.body.optProp (utf16 "author") = .undefined ∧
      createTodo numToString req.body now db
        = ⟨⟨400, .message "Author is required"⟩, db, []⟩ := by
  refine ⟨⟨"POST", "/api/todos", .obj (.cons (utf16 "title") (.str (jsTrim title)) .nil)⟩,
    by simp [onCreate, h], rfl, rfl, rfl, rfl, ?_⟩
  have ht : (JsVal.obj (.cons (utf16 "title") (.str (jsTrim title)) .nil)).optProp
      (utf16 "title") = .str (jsTrim title) := rfl
  have ha : (JsVal.obj (.cons (utf16 "title") (.str (jsTrim title)) .nil)).optProp
      (utf16 "author") = .undefined := rfl
  have he : jsTrim ([] : JsStr) = [] := rfl
  simp [createTodo, ht, ha, JsVal.orEmpty, JsVal.toBoolean, h, JsVal.toStr, jsTrim_idem, he]

/-- Evaluation of C12 at the title `Buy milk`. -/
theorem client_create_rejected_witness :
    ∃ req, onCreate (utf16 "Buy milk") = some req ∧ req.method = "POST" ∧
      req.path = "/api/todos" ∧
      req.body.optProp (utf16 "title") = .str (jsTrim (utf16 "Buy milk")) ∧
      req.body.optProp (utf16 "author") = .undefined ∧
      createTodo sampleNumToString req.body 5 emptyStore
        = ⟨⟨400, .message "Author is required"⟩, emptyStore, []⟩ :=
  client_create_rejected sampleNumToString (utf16 "Buy milk") 5 emptyStore (by decide)

/-! ## The order of the raw SQL migrations -/

theorem codeUnitCompare_total (a b : JsStr) :
    codeUnitCompare a b ≤ 0 ∨ codeUnitCompare b a ≤ 0 := by
  induction a generalizing b with
  | nil => cases b <;> simp [codeUnitCompare]
  | cons x xs ih =>
    cases b with
    | nil => simp [codeUnitCompare]
    | cons y ys =>
      simp only [codeUnitCompare]
      by_cases h1 : x.val < y.val
      · simp [h1]
      · by_cases h2 : y.val < x.val
        · simp [h2]
        · simpa [h1, h2] using ih ys

theorem codeUnitCompare_trans (a b c : JsStr) (hab : codeUnitCompare a b ≤ 0)
    (hbc : codeUnitCompare b c ≤ 0) : codeUnitCompare a c ≤ 0 := by
  induction a generalizing b c with
  | nil => cases c <;> simp [codeUnitCompare]
  | cons x xs ih =>
    cases b with
    | nil => simp [codeUnitCompare] at hab
    | cons y ys =>
      cases c with
      | nil => simp [codeUnitCompare] at hbc
      | cons z zs =>
        simp only [codeUnitCompare] at hab hbc ⊢
        by_cases h1 : x.val < y.val
        · by_cases h3 : y.val < z.val
          · have : x.val < z.val := by omega
            simp [this]
          · by_cases h4 : z.val < y.val
            · simp [h3, h4] at hbc
            · have : x.val < z.val := by omega
              simp [this]
        · by_cases h2 : y.val < x.val
          · simp [h1, h2] at hab
          · simp only [h1, h2, if_false] at hab
            by_cases h3 : y.val < z.val
            · have : x.val < z.val := by omega
              simp [this]
            · by_cases h4 : z.val < y.val
              · simp [h3, h4] at hbc
              · simp only [h3, h4, if_false] at hbc
                have h5 : ¬ x.val < z.val := by omega
                have h6 : ¬ z.val < x.val := by omega
                simp only [h5, h6, if_false]
                exact ih ys zs hab hbc

/-- C13 (amended): with a comparator that is total and transitive, the list
`collectSqlMigrations` returns is sorted by full path (every path is not
greater than any path after it), it is a rearrangement of the `.sql` paths
collected from the three directories, and `runSqlMigrations` applies the files
in the order of that list. -/
theorem migrations_sorted_by_path (localeCompare : JsStr → JsStr → Int) (cwd : JsStr)
    (fs : JsStr → DirState) (files : List JsStr)
    (htotal : ∀ a b, localeCompare a b ≤ 0 ∨ localeCompare b a ≤ 0)
    (htrans : ∀ a b c, localeCompare a b ≤ 0 → localeCompare b c ≤ 0 → localeCompare a c ≤ 0)
    (h : collectSqlMigrations localeCompare cwd fs = some files) :
    files.Sorted (fun a b => localeCompare a b ≤ 0) ∧
    (∃ collected, collectFrom cwd fs sqlDirs [] = some collected ∧ files.Perm collected) ∧
    (∀ url : JsStr, url ≠ [] → files ≠ [] →
      runSqlMigrations localeCompare cwd fs (some url) = .ok files) := by
  haveI : IsTotal JsStr (fun a b => localeCompare a b ≤ 0) := ⟨htotal⟩
  haveI : IsTrans JsStr (fun a b => localeCompare a b ≤ 0) := ⟨htrans⟩
  obtain ⟨collected, hcol, rfl⟩ := Option.map_eq_some'.mp h
  refine ⟨List.sorted_insertionSort _ collected, ⟨collected, hcol, List.perm_insertionSort _ _⟩,
    fun url hurl hne => ?_⟩
  have hlen : (collected.insertionSort fun a b => localeCompare a b ≤ 0).length ≠ 0 := by
    rwa [Ne, List.length_eq_zero]
  simp only [runSqlMigrations, hurl, if_false, h, hlen]

/-- Witness of C13 (amended): the sample tree under `/w`. -/
theorem migrations_sorted_by_path_witness :
    [utf16 "/w/db/migrations/002.sql", utf16 "/w/migrations/001.sql"].Sorted
      (fun a b => codeUnitCompare a b ≤ 0) ∧
    (∃ collected, collectFrom (utf16 "/w") sampleTree sqlDirs [] = some collected ∧
      [utf16 "/w/db/migrations/002.sql", utf16 "/w/migrations/001.sql"].Perm collected) ∧
    (∀ url : JsStr, url ≠ [] →
      [utf16 "/w/db/migrations/002.sql", utf16 "/w/migrations/001.sql"] ≠ [] →
      runSqlMigrations codeUnitCompare (utf16 "/w") sampleTree (some url)
        = .ok [utf16 "/w/db/migrations/002.sql", utf16 "/w/migrations/001.sql"]) :=
  migrations_sorted_by_path codeUnitCompare (utf16 "/w") sampleTree
    [utf16 "/w/db/migrations/002.sql", utf16 "/w/migrations/001.sql"]
    codeUnitCompare_total codeUnitCompare_trans (by decide)

/-- C13 as stated fails: with `migrations/001.sql` and `db/migrations/002.sql`
the returned list starts with `db/migrations/002.sql`, whose name `002.sql` is
greater than the name `001.sql` of the file after it. -/
theorem migrations_not_sorted_by_name :
    collectSqlMigrations codeUnitCompare (utf16 "/w") sampleTree
      = some [utf16 "/w/db/migrations/002.sql", utf16 "/w/migrations/001.sql"] ∧
    baseName (utf16 "/w/db/migrations/002.sql") = utf16 "002.sql" ∧
    baseName (utf16 "/w/migrations/001.sql") = utf16 "001.sql" ∧
    0 < codeUnitCompare (utf16 "002.sql") (utf16 "001.sql") := by
  decide

/-! ## The statement texts carry no request data -/

theorem createTodo_issued (numToString : JsNum → JsStr) (body : JsVal) (now : Nat)
    (db : Store) :
    (createTodo numToString body now db).issued = [] ∨
    ∃ t a, (createTodo numToString body now db).issued
      = [⟨insertSql, [.str t, .str a]⟩, ⟨selectByIdSql, [.num (JsNum.ofInt db.autoInc)]⟩] := by
  cases ht : createField numToString body (utf16 "title") with
  | none =>
    have h0 : ((body.optProp (utf16 "title")).orEmpty).toStr numToString = none := by
      simpa [createField] using ht
    exact Or.inl (by simp [createTodo, h0])
  | some t =>
    cases ha : createField numToString body (utf16 "author") with
    | none =>
      have h0 : ((body.optProp (utf16 "author")).orEmpty).toStr numToString = none := by
        simpa [createField] using ha
      exact Or.inl (by simp [createTodo, h0])
    | some a =>
      by_cases hv : ValidText t ∧ ValidText a
      · obtain ⟨row, -, hcreate⟩ := createTodo_of_valid numToString body now db t a ht ha hv.1 hv.2
        exact Or.inr ⟨t, a, by rw [hcreate]⟩
      · obtain ⟨text, hcreate, -⟩ := createTodo_of_invalid numToString body now db t a ht ha hv
        exact Or.inl (by rw [hcreate])

theorem updateTodo_issued (numToString : JsNum → JsStr) (idParam : JsStr) (body : JsVal)
    (now : Nat) (db : Store) :
    (updateTodo numToString idParam body now db).issued = [] ∨
    ∃ t? a? c?, TextField numToString body (utf16 "title") t? ∧
      TextField numToString body (utf16 "author") a? ∧ FlagField body c? ∧
      ¬ (t? = none ∧ a? = none ∧ c? = none) ∧
      ∃ tail, (tail = [] ∨ tail = [⟨selectByIdSql, [.num (jsNumber idParam)]⟩]) ∧
        (updateTodo numToString idParam body now db).issued
          = ⟨updateSql ((planOf t? a? c?).1.map Column.fragment),
              (planOf t? a? c?).2 ++ [.num (jsNumber idParam)]⟩ :: tail := by
  by_cases hfin : (jsNumber idParam).isFinite = true
  · cases hcol : collectUpdates numToString body with
    | error r => exact Or.inl (by simp [updateTodo, hfin, hcol])
    | ok acc =>
      obtain ⟨t?, a?, c?, ht, ha, hc, rfl⟩ := collectUpdates_ok hcol
      by_cases hsome : t? = none ∧ a? = none ∧ c? = none
      · obtain ⟨rfl, rfl, rfl⟩ := hsome
        exact Or.inl (by simp [updateTodo, hfin, hcol, planOf])
      · refine Or.inr ⟨t?, a?, c?, ht, ha, hc, hsome, ?_⟩
        rw [updateTodo_of_fields numToString idParam body now db hfin ht ha hc hsome]
        cases (db.rows.filter (Row.hasId (jsNumber idParam))).head? with
        | none => exact ⟨[], Or.inl rfl, rfl⟩
        | some r => exact ⟨_, Or.inr rfl, rfl⟩
  · exact Or.inl (by simp [updateTodo, hfin])

theorem deleteTodo_issued (idParam : JsStr) (now : Nat) (db : Store) :
    (deleteTodo idParam now db).issued = [] ∨
    (deleteTodo idParam now db).issued = [⟨deleteSql, [.num (jsNumber idParam)]⟩] := by
  by_cases hfin : (jsNumber idParam).isFinite = true
  · rw [deleteTodo_of_finite idParam now db hfin]
    split <;> exact Or.inr rfl
  · exact Or.inl (by simp [deleteTodo, hfin])

theorem textField_supplies {numToString : JsNum → JsStr} {body : JsVal} {k : JsStr}
    {x? : Option JsStr} (h : TextField numToString body k x?) : supplies body k = x?.isSome := by
  cases x? with
  | none =>
    have hg : body.getProp k = some .undefined := h
    simp [supplies, hg, JsVal.isUndefined]
  | some x =>
    obtain ⟨-, v, s, hg, hv, -, -⟩ := h
    cases v <;> simp_all [supplies, JsVal.isUndefined]

theorem flagField_supplies {body : JsVal} {c? : Option Bool} (h : FlagField body c?) :
    supplies body (utf16 "completed") = c?.isSome := by
  cases c? with
  | none =>
    have hg : body.getProp (utf16 "completed") = some .undefined := h
    simp [supplies, hg, JsVal.isUndefined]
  | some b =>
    obtain ⟨v, hg, hv, -⟩ := h
    cases v <;> simp_all [supplies, JsVal.isUndefined]

theorem planOf_columns (t? a? : Option JsStr) (c? : Option Bool) :
    (planOf t? a? c?).1 = columnsOf t?.isSome a?.isSome c?.isSome := by
  cases t? <;> cases a? <;> cases c? <;> rfl

theorem planOf_lengths (t? a? : Option JsStr) (c? : Option Bool) :
    (planOf t? a? c?).2.length = (planOf t? a? c?).1.length := by
  cases t? <;> cases a? <;> cases c? <;> rfl

theorem placeholders_update :
    ∀ cols ∈ updateShapes, placeholders (updateSql (cols.map Column.fragment)) = cols.length + 1 := by
  decide

theorem handle_texts_prefix (numToString : JsNum → JsStr) (req : Request) (now : Nat)
    (db : Store) :
    (handle numToString req now db).issued.map Issued.sql <+: operationTexts req.operation := by
  cases req with
  | list => simp [handle, listTodos_eq, Request.operation, operationTexts]
  | create body =>
    rcases createTodo_issued numToString body now db with h | ⟨t, a, h⟩
    · simp [handle, h]
    · simp [handle, h, Request.operation, operationTexts]
  | update idParam body =>
    rcases updateTodo_issued numToString idParam body now db with
      h | ⟨t?, a?, c?, ht, ha, hc, -, tail, htail, h⟩
    · simp [handle, h]
    · simp only [handle, h, Request.operation, operationTexts, textField_supplies ht,
        textField_supplies ha, flagField_supplies hc, ← planOf_columns]
      rcases htail with rfl | rfl
      · exact ⟨[selectByIdSql], rfl⟩
      · exact List.prefix_refl _
  | delete idParam =>
    rcases deleteTodo_issued idParam now db with h | h
    · simp [handle, h]
    · simp [handle, h, Request.operation, operationTexts]

theorem handle_placeholders (numToString : JsNum → JsStr) (req : Request) (now : Nat)
    (db : Store) :
    ∀ s ∈ (handle numToString req now db).issued, placeholders s.sql = s.params.length := by
  have hsel : placeholders selectByIdSql = 1 := by decide
  have hins : placeholders insertSql = 2 := by decide
  have hdel : placeholders deleteSql = 1 := by decide
  cases req with
  | list =>
    simp only [handle, listTodos_eq, List.mem_singleton]
    rintro s rfl
    decide
  | create body =>
    rcases createTodo_issued numToString body now db with h | ⟨t, a, h⟩
    · simp [handle, h]
    · simp only [handle, h, List.mem_cons, List.mem_singleton, List.not_mem_nil, or_false]
      rintro s (rfl | rfl)
      · exact hins
      · exact hsel
  | update idParam body =>
    rcases updateTodo_issued numToString idParam body now db with
      h | ⟨t?, a?, c?, ht, ha, hc, hsome, tail, htail, h⟩
    · simp [handle, h]
    · have hshape : (planOf t? a? c?).1 ∈ updateShapes := by
        rcases planOf_shape t? a? c? with h0 | h0
        · exact absurd h0.2 hsome
        · exact h0
      have hupd : placeholders (updateSql ((planOf t? a? c?).1.map Column.fragment))
          = ((planOf t? a? c?).2 ++ [SqlParam.num (jsNumber idParam)]).length := by
        rw [placeholders_update _ hshape, List.length_append, planOf_lengths]
        rfl
      simp only [handle, h, List.mem_cons]
      rintro s (rfl | hs)
      · exact hupd
      · rcases htail with rfl | rfl
        · simp at hs
        · rw [List.mem_singleton] at hs
          subst hs
          exact hsel
  | delete idParam =>
    rcases deleteTodo_issued idParam now db with h | h
    · simp [handle, h]
    · simp only [handle, h, List.mem_singleton]
      rintro s rfl
      exact hdel

theorem prefix_getElem?_eq {l1 l2 full : List String} (h1 : l1 <+: full) (h2 : l2 <+: full)
    {k : Nat} {x y : String} (hx : l1[k]? = some x) (hy : l2[k]? = some y) : x = y := by
  obtain ⟨r1, rfl⟩ := h1
  obtain ⟨r2, h2⟩ := h2
  have hk1 : k < l1.length := (List.getElem?_eq_some_iff.mp hx).1
  have hk2 : k < l2.length := (List.getElem?_eq_some_iff.mp hy).1
  have e1 : (l1 ++ r1)[k]? = some x := by rw [List.getElem?_append_left hk1]; exact hx
  have e2 : (l2 ++ r2)[k]? = some y := by rw [List.getElem?_append_left hk2]; exact hy
  rw [h2, e1] at e2
  exact Option.some.inj e2

/-- C11: two requests to the same operation that supply the same set of
fields hand the store the same statement texts, position by position, whatever
their ids, bodies, arrival times and stores are; every statement a request
issues has as many `?` placeholders as parameters; and the first statement of
an update is the `UPDATE` text of its supplied columns with the parameters
title, author, completed (those supplied, in this order) followed by the
id. -/
theorem sql_text_independent (numToString : JsNum → JsStr) (req1 req2 : Request)
    (now1 now2 : Nat) (db1 db2 : Store) (hop : req1.operation = req2.operation) :
    (∀ (k : Nat) (s1 s2 : Issued),
      (handle numToString req1 now1 db1).issued[k]? = some s1 →
      (handle numToString req2 now2 db2).issued[k]? = some s2 → s1.sql = s2.sql) ∧
    (∀ s ∈ (handle numToString req1 now1 db1).issued, placeholders s.sql = s.params.length) ∧
    (∀ (idParam : JsStr) (body : JsVal) (s : Issued), req1 = .update idParam body →
      (handle numToString req1 now1 db1).issued.head? = some s →
      ∃ t? a? c?, TextField numToString body (utf16 "title") t? ∧
        TextField numToString body (utf16 "author") a? ∧ FlagField body c? ∧
        s.sql = updateSql ((planOf t? a? c?).1.map Column.fragment) ∧
        s.params = (t?.map SqlParam.str).toList ++ (a?.map SqlParam.str).toList
          ++ (c?.map SqlParam.bool).toList ++ [.num (jsNumber idParam)]) := by
  refine ⟨fun k s1 s2 h1 h2 => ?_, handle_placeholders numToString req1 now1 db1,
    fun idParam body s hreq hs => ?_⟩
  · have p1 := handle_texts_prefix numToString req1 now1 db1
    have p2 := handle_texts_prefix numToString req2 now2 db2
    rw [hop] at p1
    have e1 : (List.map Issued.sql (handle numToString req1 now1 db1).issued)[k]?
        = some s1.sql := by rw [List.getElem?_map, h1]; rfl
    have e2 : (List.map Issued.sql (handle numToString req2 now2 db2).issued)[k]?
        = some s2.sql := by rw [List.getElem?_map, h2]; rfl
    exact prefix_getElem?_eq p1 p2 e1 e2
  · subst hreq
    rcases updateTodo_issued numToString idParam body now1 db1 with
      h | ⟨t?, a?, c?, ht, ha, hc, -, tail, -, h⟩
    · simp [handle, h] at hs
    · simp only [handle, h, List.head?_cons, Option.some.injEq] at hs
      subst hs
      exact ⟨t?, a?, c?, ht, ha, hc, rfl, rfl⟩

/-- Witness of C11: two updates that both supply `title` and `completed`, with
different ids and values. -/
theorem sql_text_independent_witness :
    (∀ (k : Nat) (s1 s2 : Issued),
      (handle sampleNumToString
        (.update (utf16 "1") (titleCompletedBody (.str (utf16 "Buy milk")) true)) 9
        oneTodoStore).issued[k]? = some s1 →
      (handle sampleNumToString
        (.update (utf16 "7") (titleCompletedBody (.str (utf16 "x; DROP TABLE todos")) false)) 4
        emptyStore).issued[k]? = some s2 → s1.sql = s2.sql) ∧
    (∀ s ∈ (handle sampleNumToString
        (.update (utf16 "1") (titleCompletedBody (.str (utf16 "Buy milk")) true)) 9
        oneTodoStore).issued, placeholders s.sql = s.params.length) ∧
    (∀ (idParam : JsStr) (body : JsVal) (s : Issued),
      Request.update (utf16 "1") (titleCompletedBody (.str (utf16 "Buy milk")) true)
        = .update idParam body →
      (handle sampleNumToString
        (.update (utf16 "1") (titleCompletedBody (.str (utf16 "Buy milk")) true)) 9
        oneTodoStore).issued.head? = some s →
      ∃ t? a? c?, TextField sampleNumToString body (utf16 "title") t? ∧
        TextField sampleNumToString body (utf16 "author") a? ∧ FlagField body c? ∧
        s.sql = updateSql ((planOf t? a? c?).1.map Column.fragment) ∧
        s.params = (t?.map SqlParam.str).toList ++ (a?.map SqlParam.str).toList
          ++ (c?.map SqlParam.bool).toList ++ [.num (jsNumber idParam)]) :=
  sql_text_independent sampleNumToString
    (.update (utf16 "1") (titleCompletedBody (.str (utf16 "Buy milk")) true))
    (.update (utf16 "7") (titleCompletedBody (.str (utf16 "x; DROP TABLE todos")) false))
    9 4 oneTodoStore emptyStore (by decide)

end TodoService
